import Mathlib

/-!
# Surge formula modulator: `FormulaModulationHelper.cpp`

A shallow embedding of `prepareForEvaluation`, `cleanEvaluatorState`,
`initEvaluatorState` and `valueAt` from
`src/common/dsp/modulators/FormulaModulationHelper.cpp`.

The C++ code drives a Lua interpreter through the Lua C API.  The API calls the
source makes are translated one by one as functions on an explicit interpreter
state (`LState`: a value stack, a store of tables, a store of function objects).
What the interpreter itself does when it compiles a text or runs a function is
not part of the repository; it is taken as the parameter `Deps`.

Conventions of the translation:

* `none` stands for undefined behaviour or an unprotected Lua error (which makes
  the host abort): popping from an empty stack, indexing something that is not a
  table, a script that does not return.
* Table access is raw: metatables are not modelled.
* `lua_Number` and `float` are the abstract type `Num`; the narrowing of a
  `lua_Number` to `float` is `Deps.toFloat`.
* The `SGLD` stack guard only prints to the console and is left out, as are the
  `std::cout` lines.
* Formula texts are C strings without an embedded NUL.
* The name counters are 32-bit `int`s; `id++` wraps in two's complement
  (`wrapInt32`), which is what the `if (id < 0)` test of the source relies on.
* `snprintf` cuts a name to the buffer size `TXT_SIZE`, a constant that is not in
  the sources and is a field of `Deps`; statements that need a name to survive
  uncut say so as a hypothesis on `TXT_SIZE`.

The definitions come first: the Lua state and API, the four functions of the
source, a small concrete runtime (`demo`) on which the statements are run, and
the predicates used in the statements.  The theorems follow, the claims `C1` to
`C10` last.
-/

set_option linter.unusedSectionVars false

namespace Surge
namespace Formula

/-! ## Lua values, tables and the interpreter state -/

/-- A Lua value as seen through the C API.  Tables and functions are references
into the stores of `Heap`. -/
inductive Value (Num : Type) where
  | nil
  | bool (b : Bool)
  | num (n : Num)
  | str (s : String)
  | table (ref : Nat)
  | func (ref : Nat)
  deriving DecidableEq

/-- The contents of one table, in traversal order. -/
abbrev Table (Num : Type) := List (Value Num × Value Num)

/-- A function object: its code and its environment table (`lua_setfenv`). -/
structure FuncObj where
  code : Nat
  env : Nat
  deriving DecidableEq

/-- Everything a running script can reach.  Table `0` is the table of globals
(`LUA_GLOBALSINDEX`); `fresh` is the next unused reference; `rng` is the hidden
state of the `math.random` generator. -/
structure Heap (Num : Type) where
  tables : Nat → Table Num
  funcs : Nat → FuncObj
  fresh : Nat
  rng : Nat

/-- A `lua_State`: the heap, the C API stack (top first) and the number of
`luaL_loadbuffer` calls made on it so far (a compile counter). -/
structure LState (Num : Type) where
  heap : Heap Num
  stack : List (Value Num)
  loads : Nat

/-- What the translation takes from outside the repository: the Lua runtime
and the `TXT_SIZE` constant of the name buffers. -/
structure Deps (Num : Type) where
  /-- Size of the `stateName` and `funcName` buffers. -/
  TXT_SIZE : Nat
  /-- Conversion of a C `int` or numeric literal to a number. -/
  ofInt : Int → Num
  /-- Narrowing of a `lua_Number` to `float`. -/
  toFloat : Num → Num
  /-- Lua coercion of a string to a number, when it has one. -/
  strToNum : String → Option Num
  /-- Lua coercion of a number to a string. -/
  numToStr : Num → String
  /-- Front end of `luaL_loadbuffer`: the code of the chunk, or the message. -/
  compile : String → Except String Nat
  /-- Running function object `f` on arguments in a heap: the heap afterwards and
  either the error object raised or the values returned; `none` when the call
  does not return. -/
  call : Nat → List (Value Num) → Heap Num →
    Option (Heap Num × Except (Value Num) (List (Value Num)))
  /-- The state `lua_open` and `luaL_openlibs` produce. -/
  openlibs : LState Num

variable {Num : Type} [DecidableEq Num]

/-- Raw read of a table field; an absent key reads as `nil`. -/
def rawget : Table Num → Value Num → Value Num
  | [], _ => Value.nil
  | (k1, v) :: t, k => if k1 = k then v else rawget t k

/-- Raw write of a table field: storing `nil` removes the key, storing to a
present key replaces its value in place, storing to a new key appends. -/
def rawset (t : Table Num) (k v : Value Num) : Table Num :=
  if v = Value.nil then t.filter (fun e => decide (e.1 ≠ k))
  else if k ∈ t.map Prod.fst then t.map (fun e => if e.1 = k then (k, v) else e)
  else t ++ [(k, v)]

/-- The entry that follows key `k` in traversal order (`nil` starts the
traversal): `some none` at the end, `none` when `k` is not a key. -/
def nextEntry : Table Num → Value Num → Option (Option (Value Num × Value Num))
  | t, Value.nil => some t.head?
  | [], _ => none
  | (k1, _) :: t, k => if k1 = k then some t.head? else nextEntry t k

namespace Heap

/-- The heap with table `r` replaced. -/
def setTable (H : Heap Num) (r : Nat) (t : Table Num) : Heap Num :=
  { H with tables := fun i => if i = r then t else H.tables i }

/-- The heap with function object `r` replaced. -/
def setFunc (H : Heap Num) (r : Nat) (f : FuncObj) : Heap Num :=
  { H with funcs := fun i => if i = r then f else H.funcs i }

/-- Value of the global variable `name`. -/
def global (H : Heap Num) (name : String) : Value Num :=
  rawget (H.tables 0) (Value.str name)

end Heap

/-! ## The Lua C API calls used by the source -/

/-- The value at a stack index: negative indices count from the top, positive
ones from the bottom. -/
def index2adr (L : LState Num) (idx : Int) : Option (Value Num) :=
  if idx < 0 then L.stack.get? (Int.toNat (-idx - 1))
  else if idx = 0 then none
  else L.stack.reverse.get? (Int.toNat (idx - 1))

/-- Stack function `lua_settop`. -/
def lua_settop (L : LState Num) (idx : Int) : Option (LState Num) :=
  if 0 ≤ idx then
    let n := Int.toNat idx
    some { L with stack :=
      List.replicate (n - L.stack.length) Value.nil ++ L.stack.drop (L.stack.length - n) }
  else
    let drop := Int.toNat (-idx - 1)
    if drop ≤ L.stack.length then some { L with stack := L.stack.drop drop } else none

/-- The `lua_pop(L, n)` of `lua.h`: `lua_settop(L, -(n)-1)`. -/
def lua_pop (L : LState Num) (n : Int) : Option (LState Num) :=
  lua_settop L (-n - 1)

/-- Push of any value. -/
def push (L : LState Num) (v : Value Num) : LState Num :=
  { L with stack := v :: L.stack }

/-- API call `lua_pushnil`. -/
def lua_pushnil (L : LState Num) : LState Num := push L Value.nil

/-- API call `lua_pushstring`. -/
def lua_pushstring (L : LState Num) (s : String) : LState Num := push L (Value.str s)

/-- API call `lua_pushnumber`. -/
def lua_pushnumber (L : LState Num) (n : Num) : LState Num := push L (Value.num n)

/-- API call `lua_pushinteger`. -/
def lua_pushinteger (D : Deps Num) (L : LState Num) (n : Int) : LState Num :=
  push L (Value.num (D.ofInt n))

/-- API call `lua_pushvalue`. -/
def lua_pushvalue (L : LState Num) (idx : Int) : Option (LState Num) :=
  (index2adr L idx).map (push L)

/-- API call `lua_getglobal`. -/
def lua_getglobal (L : LState Num) (name : String) : LState Num :=
  push L (L.heap.global name)

/-- API call `lua_setglobal`: pops the value and stores it in the globals. -/
def lua_setglobal (L : LState Num) (name : String) : Option (LState Num) :=
  match L.stack with
  | [] => none
  | v :: rest =>
    some { L with
      heap := L.heap.setTable 0 (rawset (L.heap.tables 0) (Value.str name) v)
      stack := rest }

/-- API call `lua_createtable`: pushes a new empty table. -/
def lua_createtable (L : LState Num) (_narr _nrec : Nat) : LState Num :=
  { L with
    heap := { L.heap.setTable L.heap.fresh [] with fresh := L.heap.fresh + 1 }
    stack := Value.table L.heap.fresh :: L.stack }

/-- API call `lua_settable`: `t[k] = v` with `t` at `idx`, `v` on top and `k`
below it; pops both.  Indexing a non-table or a `nil` key is a Lua error. -/
def lua_settable (L : LState Num) (idx : Int) : Option (LState Num) :=
  match index2adr L idx, L.stack with
  | some (Value.table r), v :: k :: rest =>
    if k = Value.nil then none
    else some { L with heap := L.heap.setTable r (rawset (L.heap.tables r) k v), stack := rest }
  | _, _ => none

/-- API call `lua_gettable`: replaces the key on top by `t[k]`, `t` at `idx`. -/
def lua_gettable (L : LState Num) (idx : Int) : Option (LState Num) :=
  match index2adr L idx, L.stack with
  | some (Value.table r), k :: rest =>
    some { L with stack := rawget (L.heap.tables r) k :: rest }
  | _, _ => none

/-- API call `lua_next`: pops a key and pushes the next key and value of the
table at `idx`; returns `false` and pushes nothing at the end. -/
def lua_next (L : LState Num) (idx : Int) : Option (Bool × LState Num) :=
  match index2adr L idx, L.stack with
  | some (Value.table r), k :: rest =>
    match nextEntry (L.heap.tables r) k with
    | none => none
    | some none => some (false, { L with stack := rest })
    | some (some (k1, v1)) => some (true, { L with stack := v1 :: k1 :: rest })
  | _, _ => none

/-- API call `lua_setfenv`: pops a table and makes it the environment of the
function at `idx`. -/
def lua_setfenv (L : LState Num) (idx : Int) : Option (LState Num) :=
  match index2adr L idx, L.stack with
  | some (Value.func f), Value.table e :: rest =>
    some { L with
      heap := L.heap.setFunc f { L.heap.funcs f with env := e }
      stack := rest }
  | some _, Value.table _ :: rest => some { L with stack := rest }
  | _, _ => none

/-- Type test `lua_isnil`. -/
def lua_isnil (L : LState Num) (idx : Int) : Bool :=
  match index2adr L idx with
  | some Value.nil => true
  | _ => false

/-- Type test `lua_isfunction`. -/
def lua_isfunction (L : LState Num) (idx : Int) : Bool :=
  match index2adr L idx with
  | some (Value.func _) => true
  | _ => false

/-- Type test `lua_istable`. -/
def lua_istable (L : LState Num) (idx : Int) : Bool :=
  match index2adr L idx with
  | some (Value.table _) => true
  | _ => false

/-- Type test `lua_isboolean`. -/
def lua_isboolean (L : LState Num) (idx : Int) : Bool :=
  match index2adr L idx with
  | some (Value.bool _) => true
  | _ => false

/-- Type test `lua_isstring`: a string, or a number (always convertible). -/
def lua_isstring (L : LState Num) (idx : Int) : Bool :=
  match index2adr L idx with
  | some (Value.str _) => true
  | some (Value.num _) => true
  | _ => false

/-- Type test `lua_isnumber`: a number, or a string convertible to one. -/
def lua_isnumber (D : Deps Num) (L : LState Num) (idx : Int) : Bool :=
  match index2adr L idx with
  | some (Value.num _) => true
  | some (Value.str s) => (D.strToNum s).isSome
  | _ => false

/-- Conversion `lua_tostring`; `none` is the `NULL` result.  (The conversion of
a number in its stack slot is not modelled: no use here reads the slot again.) -/
def lua_tostring (D : Deps Num) (L : LState Num) (idx : Int) : Option String :=
  match index2adr L idx with
  | some (Value.str s) => some s
  | some (Value.num n) => some (D.numToStr n)
  | _ => none

/-- Conversion `lua_tonumber`; `0` for a value that is not convertible. -/
def lua_tonumber (D : Deps Num) (L : LState Num) (idx : Int) : Num :=
  match index2adr L idx with
  | some (Value.num n) => n
  | some (Value.str s) => (D.strToNum s).getD (D.ofInt 0)
  | _ => D.ofInt 0

/-- Conversion `lua_toboolean`: false for `nil` and `false` only. -/
def lua_toboolean (L : LState Num) (idx : Int) : Bool :=
  match index2adr L idx with
  | some (Value.bool b) => b
  | some Value.nil => false
  | none => false
  | _ => true

/-- Library call `luaL_loadbuffer`: pushes the compiled chunk as a function whose
environment is the globals, or the error message; returns whether it compiled. -/
def luaL_loadbuffer (D : Deps Num) (L : LState Num) (buff : String) : Bool × LState Num :=
  match D.compile buff with
  | Except.ok code =>
    (true, { heap := { L.heap.setFunc L.heap.fresh ⟨code, 0⟩ with fresh := L.heap.fresh + 1 }
             stack := Value.func L.heap.fresh :: L.stack
             loads := L.loads + 1 })
  | Except.error msg =>
    (false, { L with stack := Value.str msg :: L.stack, loads := L.loads + 1 })

/-- Name of a value's type, as in Lua error messages. -/
def typeName : Value Num → String
  | Value.nil => "nil"
  | Value.bool _ => "boolean"
  | Value.num _ => "number"
  | Value.str _ => "string"
  | Value.table _ => "table"
  | Value.func _ => "function"

/-- Results of a call adjusted to `n` values. -/
def adjust (n : Nat) (rs : List (Value Num)) : List (Value Num) :=
  (rs ++ List.replicate n Value.nil).take n

/-- API call `lua_pcall(L, nargs, nresults, 0)`: pops the arguments and the
function below them, runs it, and pushes the adjusted results (returning `true`,
for `LUA_OK`) or the error object (returning `false`). -/
def lua_pcall (D : Deps Num) (L : LState Num) (nargs nresults : Nat) :
    Option (Bool × LState Num) :=
  if L.stack.length < nargs + 1 then none
  else
    let args := (L.stack.take nargs).reverse
    match L.stack.drop nargs with
    | [] => none
    | Value.func f :: rest =>
      match D.call f args L.heap with
      | none => none
      | some (H, Except.ok rs) =>
        some (true, { L with heap := H, stack := (adjust nresults rs).reverse ++ rest })
      | some (H, Except.error e) =>
        some (false, { L with heap := H, stack := e :: rest })
    | v :: rest =>
      some (false, { L with
        stack := Value.str ("attempt to call a " ++ typeName v ++ " value") :: rest })

/-! ## The host-side data of `FormulaModulationHelper.h` -/

/-- Which of the two static interpreters a state points to. -/
inductive Ctx where
  | audio
  | display
  deriving DecidableEq

/-- The fields of `FormulaModulatorStorage` the code reads. -/
structure FormulaModulatorStorage where
  formulaString : String
  formulaHash : Nat

/-- The fields of `EvaluatorState` the code reads or writes.  `L = none` is the
null pointer; otherwise `L` names the static interpreter it points to. -/
structure EvaluatorState (Num : Type) where
  L : Option Ctx
  funcName : String
  stateName : String
  isvalid : Bool
  useEnvelope : Bool
  retrigger_AEG : Bool
  retrigger_FEG : Bool
  del : Num
  a : Num
  h : Num
  dec : Num
  s : Num
  r : Num
  rate : Num
  phase : Num
  amp : Num
  deform : Num
  tempo : Num
  songpos : Num
  error : String
  raisedError : Bool

/-- Modelled from the spec: `EvaluatorState::adderror` is declared in
`FormulaModulationHelper.h`, which is not among the sources.  The spec has every
failure "record a human-readable message" that the host reads back as `error`;
here the message is appended to the text already recorded and `raisedError`
(read at the end of `prepareForEvaluation`) is set. -/
def EvaluatorState.adderror (s : EvaluatorState Num) (msg : String) : EvaluatorState Num :=
  { s with error := s.error ++ msg, raisedError := true }

/-- The function-local statics of `prepareForEvaluation`: the two interpreters
(`none` while still `nullptr`) and the two name counters. -/
structure Statics (Num : Type) where
  audioState : Option (LState Num)
  displayState : Option (LState Num)
  aid : Int
  did : Int

/-- The statics at program start. -/
def Statics.init : Statics Num := ⟨none, none, 1, 1⟩

/-- The interpreter a state pointer refers to. -/
def Statics.state (W : Statics Num) : Ctx → Option (LState Num)
  | Ctx.audio => W.audioState
  | Ctx.display => W.displayState

/-- Write-back of an interpreter after the calls made through its pointer. -/
def Statics.setState (W : Statics Num) (c : Ctx) (L : LState Num) : Statics Num :=
  match c with
  | Ctx.audio => { W with audioState := some L }
  | Ctx.display => { W with displayState := some L }

/-- The context selected by the `is_display` flag. -/
def ctxOf (is_display : Bool) : Ctx := if is_display then Ctx.display else Ctx.audio

/-- A 32-bit `int` result, wrapped to two's complement. -/
def wrapInt32 (x : Int) : Int := (x + 2147483648) % 4294967296 - 2147483648

/-- The statement pair `id++; if (id < 0) id = 1;` on a 32-bit `int`. -/
def bumpId (id : Int) : Int :=
  let id := wrapInt32 (id + 1)
  if id < 0 then 1 else id

/-- Formatting `snprintf(buf, size, "%s", out)`: at most `size - 1` characters are
stored; with `size = 0` the buffer keeps its content. -/
def snprintf (buf : String) (size : Nat) (out : String) : String :=
  if size = 0 then buf else String.mk (out.data.take (size - 1))

/-- The key `pvn` under which the source text is stored (line 84). -/
def pvnName (is_display : Bool) (h : Nat) : String :=
  "pvn" ++ (if is_display then "1" else "0") ++ "_" ++ toString h

/-- The name `pvf` of the renamed callable (line 85). -/
def pvfName (is_display : Bool) (h : Nat) : String :=
  pvnName is_display h ++ "_f"

/-! ## `prepareForEvaluation` -/

/-- Lines 51-78: pick (creating it on first use) the interpreter, name the state
table with the current counter and advance the counter. -/
def selectState (D : Deps Num) (W : Statics Num) (s : EvaluatorState Num)
    (is_display : Bool) : Statics Num × LState Num × EvaluatorState Num :=
  if !is_display then
    let audioState := W.audioState.getD D.openlibs
    let s := { s with
      L := some Ctx.audio
      stateName := snprintf s.stateName D.TXT_SIZE ("audiostate_" ++ toString W.aid) }
    ({ W with audioState := some audioState, aid := bumpId W.aid }, audioState, s)
  else
    let displayState := W.displayState.getD D.openlibs
    let s := { s with
      L := some Ctx.display
      stateName := snprintf s.stateName D.TXT_SIZE ("dispstate_" ++ toString W.did) }
    ({ W with displayState := some displayState, did := bumpId W.did }, displayState, s)

/-- Lines 142-151: the `while (lua_next(L, -2))` loop copying each key and value
of the table below the key into the table at `-6`/`-4`.  The loop has no bound in
the source; `fuel` bounds the number of `lua_next` calls. -/
def copyLoop : Nat → LState Num → Option (LState Num)
  | 0, _ => none
  | fuel + 1, L => do
    let some (more, L) := lua_next L (-2) | none
    if more then
      let some L := lua_pushvalue L (-2) | none
      let some L := lua_pushvalue L (-2) | none
      let some L := lua_settable L (-6) | none
      let some L := lua_pop L 1 | none
      copyLoop fuel L
    else
      pure L

/-- Number of entries of the table at a stack index (`0` when there is none). -/
def entriesAt (L : LState Num) (idx : Int) : Nat :=
  match index2adr L idx with
  | some (Value.table r) => (L.heap.tables r).length
  | _ => 0

/-- Lines 119-169: after a chunk ran without error, rename `process` and give it
the math-only environment, or report that it is missing. -/
def installProcess (L : LState Num) (s : EvaluatorState Num) :
    Option (LState Num × EvaluatorState Num) := do
  let L := lua_getglobal L "process"
  if lua_isfunction L (-1) then
    let some L := lua_setglobal L s.funcName | none
    let L := lua_pushnil L
    let some L := lua_setglobal L "process" | none
    let L := lua_getglobal L s.funcName
    let L := lua_createtable L 0 10
    let L := lua_pushstring L "math"
    let L := lua_getglobal L "math"
    let some L := lua_settable L (-3) | none
    let L := lua_getglobal L "math"
    let L := lua_pushnil L
    let some L := copyLoop (entriesAt L (-2) + 1) L | none
    let some L := lua_pop L 1 | none
    let some L := lua_setfenv L (-2) | none
    let some L := lua_pop L 1 | none
    pure (L, { s with isvalid := true })
  else
    let s := s.adderror
      ("After parsing formula, no function 'process' present. You must define " ++
        "a function called 'process' in your LUA.")
    let some L := lua_pop L 1 | none
    pure (L, { s with isvalid := false })

/-- Lines 113-114: `luaL_loadbuffer`, then `lua_pcall(L, 0, 0, 0)` on what it
pushed; the status of the call (`true` for `LUA_OK`) and the state after it. -/
def runChunk (D : Deps Num) (L : LState Num) (lua_script : String) :
    Option (Bool × LState Num) :=
  let (_load_stat, L) := luaL_loadbuffer D L lua_script
  lua_pcall D L 0 0

/-- Lines 112-180: compile and run the text, install `process`, and store the
text under `pvn`. -/
def compileFormula (D : Deps Num) (fs : FormulaModulatorStorage) (pvn : String)
    (L : LState Num) (s : EvaluatorState Num) : Option (LState Num × EvaluatorState Num) := do
  let lua_script := fs.formulaString
  let some (res, L) := runChunk D L lua_script | none
  let some (L, s) :=
    (if res then installProcess L s
    else
      some (L, s.adderror
        ("LUA Raised an error parsing formula: " ++ (lua_tostring D L (-1)).getD ""))) | none
  let L := lua_pushstring L lua_script
  let some L := lua_setglobal L pvn | none
  pure (L, s)

/-- Lines 83-181: look the text up by hash, and compile it unless the stored
source equals it. -/
def resolveFormula (D : Deps Num) (fs : FormulaModulatorStorage) (s : EvaluatorState Num)
    (is_display : Bool) (L : LState Num) : Option (LState Num × EvaluatorState Num) := do
  let h := fs.formulaHash
  let pvn := pvnName is_display h
  let pvf := pvfName is_display h
  let s := { s with funcName := snprintf s.funcName D.TXT_SIZE pvf }
  let L := lua_getglobal L pvn
  let s := { s with isvalid := false }
  let (hasString, s) :=
    if lua_isstring L (-1) then
      if some fs.formulaString ≠ lua_tostring D L (-1) then
        (false, s.adderror "Hash Collision in function. Bad luck!")
      else (true, s)
    else (false, s)
  let some L := lua_pop L 1 | none
  if hasString then
    pure (L, { s with funcName := snprintf s.funcName D.TXT_SIZE pvf, isvalid := true })
  else
    compileFormula D fs pvn L s

/-- Lines 183-189: bind a new empty table to the state name of a valid state. -/
def makeStateTable (L : LState Num) (s : EvaluatorState Num) : Option (LState Num) :=
  if s.isvalid then
    let L := lua_createtable L 0 10
    lua_setglobal L s.stateName
  else some L

/-- Lines 191-219: seed the generator of the display interpreter. -/
def seedRNG (D : Deps Num) (L : LState Num) : Option (LState Num) := do
  let L := lua_getglobal L "math"
  let some L :=
    (if lua_isnil L (-1) then some L
    else do
      let L := lua_pushstring L "randomseed"
      let some L := lua_gettable L (-2) | none
      if lua_isnil L (-1) then
        lua_pop L (-1)
      else
        let L := lua_pushnumber L (D.ofInt 8675309)
        let some (_, L) := lua_pcall D L 1 0 | none
        some L) | none
  lua_pop L 1

/-- Lines 221-233: the field resets at the end of `prepareForEvaluation`. -/
def resetFields (D : Deps Num) (s : EvaluatorState Num) : EvaluatorState Num :=
  { s with
    useEnvelope := true
    del := D.ofInt 0
    dec := D.ofInt 0
    a := D.ofInt 0
    h := D.ofInt 0
    r := D.ofInt 0
    s := D.ofInt 0
    rate := D.ofInt 0
    phase := D.ofInt 0
    amp := D.ofInt 0
    deform := D.ofInt 0
    tempo := D.ofInt 120 }

/-- The function `prepareForEvaluation(fs, s, is_display)`: the statics and the
state afterwards (the C++ function always returns `true`). -/
def prepareForEvaluation (D : Deps Num) (W : Statics Num) (fs : FormulaModulatorStorage)
    (s : EvaluatorState Num) (is_display : Bool) :
    Option (Statics Num × EvaluatorState Num) := do
  let (W, L, s) := selectState D W s is_display
  let some (L, s) := resolveFormula D fs s is_display L | none
  let some L := makeStateTable L s | none
  let some L := (if is_display then seedRNG D L else some L) | none
  let s := resetFields D s
  pure (W.setState (ctxOf is_display) L, s)

/-! ## `cleanEvaluatorState`, `initEvaluatorState`, `valueAt` -/

/-- The function `cleanEvaluatorState(s)`. -/
def cleanEvaluatorState (W : Statics Num) (s : EvaluatorState Num) :
    Option (Statics Num × EvaluatorState Num) :=
  match s.L with
  | some c =>
    if s.stateName ≠ "" then do
      let some L := W.state c | none
      let L := lua_pushnil L
      let some L := lua_setglobal L s.stateName | none
      pure (W.setState c L, { s with stateName := "" })
    else some (W, s)
  | none => some (W, s)

/-- The function `initEvaluatorState(s)`. -/
def initEvaluatorState (s : EvaluatorState Num) : EvaluatorState Num :=
  { s with funcName := "", stateName := "", L := none }

/-- The lambda `addn` of `valueAt`: store a number field in the table at `-3`. -/
def addn (L : LState Num) (q : String) (f : Num) : Option (LState Num) :=
  let L := lua_pushstring L q
  let L := lua_pushnumber L f
  lua_settable L (-3)

/-- The lambda `addnil` of `valueAt`: clear a field of the table at `-3`. -/
def addnil (L : LState Num) (q : String) : Option (LState Num) :=
  let L := lua_pushstring L q
  let L := lua_pushnil L
  lua_settable L (-3)

/-- The lambda `getBoolDefault` of `valueAt`: a boolean field of the table on
top of the stack, or the default. -/
def getBoolDefault (L : LState Num) (n : String) ( def_ : Bool) : Option (Bool × LState Num) := do
  let res := def_
  let L := lua_pushstring L n
  let some L := lua_gettable L (-2) | none
  let res := if lua_isboolean L (-1) then lua_toboolean L (-1) else res
  let some L := lua_pop L 1 | none
  pure (res, L)

/-- Lines 278-310: fetch the state table and write the call inputs into it. -/
def pushInputs (D : Deps Num) (L : LState Num) (phaseIntPart : Int) (phaseFracPart : Num)
    (s : EvaluatorState Num) : Option (LState Num) := do
  let L := lua_getglobal L s.stateName
  let L := lua_pushstring L "intphase"
  let L := lua_pushinteger D L phaseIntPart
  let some L := lua_settable L (-3) | none
  let some L := addn L "phase" phaseFracPart | none
  let some L := addn L "delay" s.del | none
  let some L := addn L "attack" s.a | none
  let some L := addn L "hold" s.h | none
  let some L := addn L "sustain" s.s | none
  let some L := addn L "release" s.r | none
  let some L := addn L "rate" s.rate | none
  let some L := addn L "amplitude" s.amp | none
  let some L := addn L "startphase" s.phase | none
  let some L := addn L "deform" s.deform | none
  let some L := addn L "tempo" s.tempo | none
  let some L := addn L "songpos" s.songpos | none
  let some L := addnil L "retrigger_AEG" | none
  let some L := addnil L "retrigger_FEG" | none
  pure L

/-- Lines 314-380: read the result of the call off the stack. -/
def readResult (D : Deps Num) (lres : Bool) (L : LState Num) (s : EvaluatorState Num) :
    Option (Num × LState Num × EvaluatorState Num) := do
  if lres then
    if lua_isnumber D L (-1) then
      let r := lua_tonumber D L (-1)
      let some L := lua_pop L 1 | none
      pure (D.toFloat r, L, s)
    else if !lua_istable L (-1) then
      let s := s.adderror
        ("The return of your LUA function must be a number or table. Just return input with " ++
          "output set.")
      let s := { s with isvalid := false }
      let some L := lua_pop L 1 | none
      pure (D.ofInt 0, L, s)
    else
      let some L := lua_setglobal L s.stateName | none
      let L := lua_getglobal L s.stateName
      let L := lua_pushstring L "output"
      let some L := lua_gettable L (-2) | none
      let (res, s) :=
        if lua_isnumber D L (-1) then (D.toFloat (lua_tonumber D L (-1)), s)
        else
          (D.ofInt 0,
            { s.adderror
                "You must define the  'output' field in the returned table as a number" with
              isvalid := false })
      let some L := lua_pop L 1 | none
      let some (b, L) := getBoolDefault L "use_envelope" true | none
      let s := { s with useEnvelope := b }
      let some (b, L) := getBoolDefault L "retrigger_AEG" false | none
      let s := { s with retrigger_AEG := b }
      let some (b, L) := getBoolDefault L "retrigger_FEG" false | none
      let s := { s with retrigger_FEG := b }
      let some L := lua_pop L 1 | none
      pure (res, L, s)
  else
    let s := { s with isvalid := false }
    let s := s.adderror
      ("Failed to evaluate 'process' function." ++ (lua_tostring D L (-1)).getD "")
    pure (D.ofInt 0, L, s)

/-- The function `valueAt(phaseIntPart, phaseFracPart, fs, s)`: the returned
`float`, and the statics and the state afterwards. -/
def valueAt (D : Deps Num) (W : Statics Num) (phaseIntPart : Int) (phaseFracPart : Num)
    (_fs : FormulaModulatorStorage) (s : EvaluatorState Num) :
    Option (Num × Statics Num × EvaluatorState Num) :=
  match s.L with
  | none => some (D.ofInt 0, W, s)
  | some c =>
    if !s.isvalid then some (D.ofInt 0, W, s)
    else do
      let some L := W.state c | none
      let L := lua_getglobal L s.funcName
      if lua_isnil L (-1) then
        let s := { s with isvalid := false }
        let some L := lua_pop L 1 | none
        pure (D.ofInt 0, W.setState c L, s)
      else
        let some L := pushInputs D L phaseIntPart phaseFracPart s | none
        let some (lres, L) := lua_pcall D L 1 1 | none
        let some (out, L, s) := readResult D lres L s | none
        pure (out, W.setState c L, s)

/-! ## A small interpreter for concrete runs -/

/-- Text of a formula that defines the sawtooth `process`. -/
def sawText : String := "function process(m) m.output = m.phase * 2 - 1 return m end"

/-- Text that is not a Lua chunk. -/
def badText : String := "function process("

/-- Text of a chunk that runs and defines no `process`. -/
def noProcessText : String := "x = 1"

/-- Text of a formula whose `process` returns the bare number `1`. -/
def constText : String := "function process(m) return 1 end"

/-- Text of a formula whose `process` clears `math.floor`, then returns `0`. -/
def pokeText : String := "function process(m) math.floor = nil return 0 end"

/-- Text of a chunk that replaces `math.randomseed` by a function of its own,
which from its second call on clears the global `pvn1_7`; it defines no
`process`. -/
def trapText : String :=
  "math.randomseed = function() if armed then pvn1_7 = nil end armed = true end"

/-- Text of a chunk that clears the global `math`, then defines `process`. -/
def mathNilText : String := "math = nil function process(m) return 0 end"

/-- Text of a chunk that defines `process`, then raises the error `x`. -/
def raiseText : String := "function process(m) return 42 end error('x', 0)"

/-- Text of a chunk that clears `math.randomseed` and defines no `process`. -/
def seedNilText : String := "math.randomseed = nil"

/-- Text of a chunk that clears the global `math` and defines no `process`. -/
def dropMathText : String := "math = nil"

/-- The heap after `luaL_openlibs`, cut down to a `math` table (table `1`) with
the two library functions `floor` (function `2`) and `randomseed` (function `3`). -/
def demoHeap : Heap Int where
  tables := fun r =>
    if r = 0 then [(Value.str "math", Value.table 1)]
    else if r = 1 then
      [(Value.str "floor", Value.func 2), (Value.str "randomseed", Value.func 3)]
    else []
  funcs := fun r => if r = 2 then ⟨1, 0⟩ else if r = 3 then ⟨2, 0⟩ else ⟨0, 0⟩
  fresh := 4
  rng := 0

/-- Running a function object of the demo interpreter.  Code `2` is
`math.randomseed`; code `10` is the chunk of `sawText`, which binds a new function
of code `11` to `process` in its environment; code `11` is that function; code
`12` is the chunk of `noProcessText`; code `13` is the chunk of `constText`, which
binds a new function of code `14`, and code `14` returns `1`; code `15` is the
chunk of `pokeText`, which binds a new function of code `16`, and code `16` looks
`math` up in the environment of its function, clears the field `floor` of the
table it finds, and returns `0`; code `17` is the chunk of `trapText`, which
stores a new function of code `18` in the field `randomseed` of the table its
environment holds under `math`, and code `18` clears `pvn1_7` in the environment
of its function when `armed` is set there, then sets `armed`; code `19` is the
chunk of `mathNilText`, which clears `math` in its environment and binds a new
function of code `20`, and code `20` returns `0`; code `21` is the chunk of
`raiseText`, which binds a new function of code `22` and raises `x`, and code `22`
returns `42`; code `23` is the chunk of `seedNilText`, which clears the field
`randomseed` of the table its environment holds under `math`; code `24` is the
chunk of `dropMathText`, which clears `math` in its environment. -/
def demoCall (f : Nat) (args : List (Value Int)) (H : Heap Int) :
    Option (Heap Int × Except (Value Int) (List (Value Int))) :=
  let fo := H.funcs f
  match fo.code, args with
  | 2, [Value.num n] => some ({ H with rng := n.toNat }, Except.ok [])
  | 10, _ =>
    let H1 := H.setFunc H.fresh ⟨11, fo.env⟩
    some ({ H1.setTable fo.env
              (rawset (H1.tables fo.env) (Value.str "process") (Value.func H.fresh)) with
            fresh := H.fresh + 1 }, Except.ok [])
  | 11, [Value.table t] =>
    match rawget (H.tables t) (Value.str "phase") with
    | Value.num p =>
      some (H.setTable t (rawset (H.tables t) (Value.str "output") (Value.num (p * 2 - 1))),
            Except.ok [Value.table t])
    | _ => some (H, Except.error (Value.str "attempt to perform arithmetic on field 'phase'"))
  | 12, _ =>
    some (H.setTable fo.env (rawset (H.tables fo.env) (Value.str "x") (Value.num 1)),
          Except.ok [])
  | 13, _ =>
    let H1 := H.setFunc H.fresh ⟨14, fo.env⟩
    some ({ H1.setTable fo.env
              (rawset (H1.tables fo.env) (Value.str "process") (Value.func H.fresh)) with
            fresh := H.fresh + 1 }, Except.ok [])
  | 14, _ => some (H, Except.ok [Value.num 1])
  | 15, _ =>
    let H1 := H.setFunc H.fresh ⟨16, fo.env⟩
    some ({ H1.setTable fo.env
              (rawset (H1.tables fo.env) (Value.str "process") (Value.func H.fresh)) with
            fresh := H.fresh + 1 }, Except.ok [])
  | 16, _ =>
    match rawget (H.tables fo.env) (Value.str "math") with
    | Value.table t =>
      some (H.setTable t (rawset (H.tables t) (Value.str "floor") Value.nil),
            Except.ok [Value.num 0])
    | _ => some (H, Except.error (Value.str "attempt to index global 'math' (a nil value)"))
  | 17, _ =>
    match rawget (H.tables fo.env) (Value.str "math") with
    | Value.table t =>
      let H1 := H.setFunc H.fresh ⟨18, fo.env⟩
      some ({ H1.setTable t
                (rawset (H1.tables t) (Value.str "randomseed") (Value.func H.fresh)) with
              fresh := H.fresh + 1 }, Except.ok [])
    | v =>
      some (H, Except.error
        (Value.str ("attempt to index global 'math' (a " ++ typeName v ++ " value)")))
  | 18, _ =>
    let armed := rawget (H.tables fo.env) (Value.str "armed")
    let T1 :=
      if armed = Value.nil ∨ armed = Value.bool false then H.tables fo.env
      else rawset (H.tables fo.env) (Value.str "pvn1_7") Value.nil
    some (H.setTable fo.env (rawset T1 (Value.str "armed") (Value.bool true)), Except.ok [])
  | 19, _ =>
    let H1 := H.setTable fo.env (rawset (H.tables fo.env) (Value.str "math") Value.nil)
    let H2 := H1.setFunc H.fresh ⟨20, fo.env⟩
    some ({ H2.setTable fo.env
              (rawset (H2.tables fo.env) (Value.str "process") (Value.func H.fresh)) with
            fresh := H.fresh + 1 }, Except.ok [])
  | 20, _ => some (H, Except.ok [Value.num 0])
  | 21, _ =>
    let H1 := H.setFunc H.fresh ⟨22, fo.env⟩
    some ({ H1.setTable fo.env
              (rawset (H1.tables fo.env) (Value.str "process") (Value.func H.fresh)) with
            fresh := H.fresh + 1 }, Except.error (Value.str "x"))
  | 22, _ => some (H, Except.ok [Value.num 42])
  | 23, _ =>
    match rawget (H.tables fo.env) (Value.str "math") with
    | Value.table t =>
      some (H.setTable t (rawset (H.tables t) (Value.str "randomseed") Value.nil),
            Except.ok [])
    | v =>
      some (H, Except.error
        (Value.str ("attempt to index global 'math' (a " ++ typeName v ++ " value)")))
  | 24, _ =>
    some (H.setTable fo.env (rawset (H.tables fo.env) (Value.str "math") Value.nil),
          Except.ok [])
  | _, _ => some (H, Except.error (Value.str "attempt to call a nil value"))

/-- The demo runtime: integers for numbers, the texts above. -/
def demo : Deps Int where
  TXT_SIZE := 256
  ofInt := id
  toFloat := id
  strToNum := String.toInt?
  numToStr := toString
  compile := fun text =>
    if text = sawText then Except.ok 10
    else if text = noProcessText then Except.ok 12
    else if text = constText then Except.ok 13
    else if text = pokeText then Except.ok 15
    else if text = trapText then Except.ok 17
    else if text = mathNilText then Except.ok 19
    else if text = raiseText then Except.ok 21
    else if text = seedNilText then Except.ok 23
    else if text = dropMathText then Except.ok 24
    else Except.error "unexpected symbol"
  call := demoCall
  openlibs := ⟨demoHeap, [], 0⟩

/-- A state as `initEvaluatorState` leaves it, all numeric fields `0`. -/
def blankState : EvaluatorState Int :=
  { L := none, funcName := "", stateName := "", isvalid := false, useEnvelope := false,
    retrigger_AEG := false, retrigger_FEG := false, del := 0, a := 0, h := 0, dec := 0, s := 0,
    r := 0, rate := 0, phase := 0, amp := 0, deform := 0, tempo := 0, songpos := 0,
    error := "", raisedError := false }

/-! ## Conditions on a context used in the statements -/

/-- The interpreter of a kind as the next `prepareForEvaluation` finds it: the
static one, or a newly opened one on first use. -/
def Statics.current (D : Deps Num) (W : Statics Num) (c : Ctx) : LState Num :=
  (W.state c).getD D.openlibs

/-- The global `math` is a table of its own (`m`), allocated, and well formed as
a Lua table: no key twice, no `nil` key. -/
def MathIntact (H : Heap Num) (m : Nat) : Prop :=
  H.global "math" = Value.table m ∧ m ≠ 0 ∧ m < H.fresh ∧
    ((H.tables m).map Prod.fst).Nodup ∧ Value.nil ∉ (H.tables m).map Prod.fst

/-- Functions of code `c`, called with the seed `8675309`, return normally and
change nothing but the hidden generator state. -/
def SeedCallInert (D : Deps Num) (c : Nat) : Prop :=
  ∀ (f : Nat) (H : Heap Num), (H.funcs f).code = c →
    ∃ H2 rs, D.call f [Value.num (D.ofInt 8675309)] H = some (H2, Except.ok rs) ∧
      H2.tables = H.tables ∧ H2.funcs = H.funcs ∧ H2.fresh = H.fresh

/-- The entry `randomseed` of the math table `m` is a function that behaves like
the library one (`SeedCallInert`). -/
def SeedInert (D : Deps Num) (H : Heap Num) (m : Nat) : Prop :=
  ∃ f, rawget (H.tables m) (Value.str "randomseed") = Value.func f ∧
    SeedCallInert D (H.funcs f).code

/-- The environment table lines 128-151 build from the entries `mt` of the math
table `m`: the entry `math`, then every key of the math table with its value. -/
def envTable (mt : Table Num) (m : Nat) : Table Num :=
  mt.foldl (fun T x => rawset T x.1 x.2) (rawset [] (Value.str "math") (Value.table m))

/-- What the seeding step of `prepareForEvaluation` asks of a context: for the
display kind, whose generator is seeded at every prepare (lines 191-219), the
global `math` is a table whose `randomseed` is a function that behaves like the
library one.  Nothing is asked of an audio context. -/
def SeedOk (D : Deps Num) (H : Heap Num) (is_display : Bool) : Prop :=
  is_display = true → ∃ m, MathIntact H m ∧ SeedInert D H m

/-- What the last steps of `prepareForEvaluation` (binding the state table,
seeding the display generator) ask of a context: the table of globals is
allocated (reference `0` is in use, so a new table is not the table of globals;
this holds in every heap an interpreter can be in) and, for the display kind, the
math library is intact with a well-behaved `math.randomseed`.  For the audio kind
the first condition is all there is. -/
def SeedReady (D : Deps Num) (H : Heap Num) (is_display : Bool) : Prop :=
  0 < H.fresh ∧ (is_display = true → ∃ m, MathIntact H m ∧ SeedInert D H m)

/-- The string a value converts to, if any (`lua_isstring`, `lua_tostring`): a
number reads as its string form. -/
def toStr (D : Deps Num) : Value Num → Option String
  | Value.str t => some t
  | Value.num n => some (D.numToStr n)
  | _ => none

/-- The source text stored under a global name, as `lua_tostring` reads it. -/
def storedSource (D : Deps Num) (H : Heap Num) (name : String) : Option String :=
  toStr D (H.global name)

/-- The call inputs `valueAt` writes into the state table (lines 280-310), in
the order of the source; `nil` clears the field. -/
def inputFields (D : Deps Num) (phaseIntPart : Int) (phaseFracPart : Num)
    (s : EvaluatorState Num) : List (String × Value Num) :=
  [("intphase", Value.num (D.ofInt phaseIntPart)),
   ("phase", Value.num phaseFracPart),
   ("delay", Value.num s.del),
   ("attack", Value.num s.a),
   ("hold", Value.num s.h),
   ("sustain", Value.num s.s),
   ("release", Value.num s.r),
   ("rate", Value.num s.rate),
   ("amplitude", Value.num s.amp),
   ("startphase", Value.num s.phase),
   ("deform", Value.num s.deform),
   ("tempo", Value.num s.tempo),
   ("songpos", Value.num s.songpos),
   ("retrigger_AEG", Value.nil),
   ("retrigger_FEG", Value.nil)]

/-- A state table with the call inputs written into it. -/
def inputsTable (D : Deps Num) (T : Table Num) (phaseIntPart : Int) (phaseFracPart : Num)
    (s : EvaluatorState Num) : Table Num :=
  (inputFields D phaseIntPart phaseFracPart s).foldl (fun T x => rawset T (Value.str x.1) x.2) T

/-- The number a value converts to, if any (`lua_isnumber`, `lua_tonumber`). -/
def toNumber (D : Deps Num) : Value Num → Option Num
  | Value.num n => some n
  | Value.str t => D.strToNum t
  | _ => none

/-- A boolean field of a table, or the default when the field is absent or not
a boolean. -/
def boolField (T : Table Num) (name : String) (dflt : Bool) : Bool :=
  match rawget T (Value.str name) with
  | Value.bool b => b
  | _ => dflt

/-- The name counter of a kind. -/
def counterOf (W : Statics Num) (is_display : Bool) : Int :=
  if is_display then W.did else W.aid

/-- The constant part of a state-table name: `audiostate_` or `dispstate_`. -/
def kindName (is_display : Bool) : String :=
  if is_display then "dispstate_" else "audiostate_"

/-- A sequence of `prepareForEvaluation` calls run one after the other on the
statics: the states they return, in order, and the statics at the end. -/
def prepareAll (D : Deps Num) :
    Statics Num → List (FormulaModulatorStorage × EvaluatorState Num × Bool) →
      Option (List (EvaluatorState Num) × Statics Num)
  | W, [] => some ([], W)
  | W, c :: rest =>
    match prepareForEvaluation D W c.1 c.2.1 c.2.2 with
    | none => none
    | some (W2, s2) => (prepareAll D W2 rest).map (fun r => (s2 :: r.1, r.2))

/-- Value of a string of decimal digits. -/
def decodeDigits (cs : List Char) : Nat :=
  cs.foldl (fun acc c => acc * 10 + (c.toNat - 48)) 0

/-- The statics after a first `prepareForEvaluation` of `text` with hash `h`
from program start, under the demo runtime. -/
def demoAfter (text : String) (h : Nat) (is_display : Bool) : Statics Int :=
  ((prepareForEvaluation demo Statics.init ⟨text, h⟩ blankState is_display).map Prod.fst).getD
    Statics.init

/-- The evaluator state that first `prepareForEvaluation` returns. -/
def demoPrepared (text : String) (h : Nat) (is_display : Bool) : EvaluatorState Int :=
  ((prepareForEvaluation demo Statics.init ⟨text, h⟩ blankState is_display).map Prod.snd).getD
    blankState

/-- The statics after two display prepares from program start under the demo
runtime: the sawtooth text with hash `7`, then `trapText` with hash `8`, whose
chunk replaces `math.randomseed`; the seeding step of that second prepare is the
first call of the replacement. -/
def demoTrapped : Statics Int :=
  ((prepareAll demo Statics.init
    [(⟨sawText, 7⟩, blankState, true), (⟨trapText, 8⟩, blankState, true)]).map Prod.snd).getD
    Statics.init

theorem rawget_filter_ne (t : Table Num) (k k2 : Value Num) :
    rawget (t.filter (fun e => decide (e.1 ≠ k))) k2 = if k2 = k then Value.nil else rawget t k2 := by
  induction t with
  | nil => simp [rawget]
  | cons e t ih =>
    obtain ⟨a, b⟩ := e
    by_cases hak : a = k
    · subst hak
      simp only [List.filter, ne_eq, not_true_eq_false, decide_False, rawget]
      rw [ih]
      by_cases h2 : k2 = a
      · simp [h2]
      · have : ¬ a = k2 := fun h => h2 h.symm
        simp [h2, this]
    · simp only [List.filter, ne_eq, hak, not_false_eq_true, decide_True, rawget]
      rw [ih]
      by_cases h2 : k2 = k
      · subst h2
        simp [hak]
      · simp [h2]

theorem rawget_cons (e : Value Num × Value Num) (t : Table Num) (k : Value Num) :
    rawget (e :: t) k = if e.1 = k then e.2 else rawget t k := by
  obtain ⟨a, b⟩ := e
  rfl

theorem rawget_map_replace (t : Table Num) (k v k2 : Value Num) :
    rawget (t.map (fun e => if e.1 = k then (k, v) else e)) k2
      = if k2 = k then (if k ∈ t.map Prod.fst then v else Value.nil) else rawget t k2 := by
  induction t with
  | nil => simp [rawget]
  | cons e t ih =>
    obtain ⟨a, b⟩ := e
    simp only [List.map_cons, rawget_cons, ih, List.mem_cons]
    by_cases hak : a = k
    · subst hak
      by_cases h2 : k2 = a
      · subst h2; simp
      · have : ¬ a = k2 := fun h => h2 h.symm
        simp [h2, this]
    · have hka : ¬ k = a := fun h => hak h.symm
      by_cases h2 : k2 = k
      · subst h2
        have hiff : (k2 = a ∨ k2 ∈ List.map Prod.fst t) = (k2 ∈ List.map Prod.fst t) := by
          simp [hka]
        simp only [hak, if_false, if_true]
        simp only [hiff]
      · simp [hak, h2]

theorem rawget_append_single (t : Table Num) (k v k2 : Value Num) (hk : k ∉ t.map Prod.fst) :
    rawget (t ++ [(k, v)]) k2 = if k2 = k then v else rawget t k2 := by
  induction t with
  | nil =>
    by_cases h2 : k2 = k
    · simp [rawget, h2]
    · have : ¬ k = k2 := fun h => h2 h.symm
      simp [rawget, h2, this]
  | cons e t ih =>
    obtain ⟨a, b⟩ := e
    have hak : a ≠ k := fun h => hk (by simp [h])
    have hin : k ∉ t.map Prod.fst := fun h => hk (by simp only [List.map, List.mem_cons]; exact Or.inr h)
    simp only [List.cons_append, rawget_cons]
    rw [ih hin]
    by_cases h2 : k2 = k
    · subst h2; simp [hak]
    · simp [h2]

/-- Reading after a raw write: the written key reads as the value written, every
other key as before. -/
theorem rawget_rawset (t : Table Num) (k v k2 : Value Num) :
    rawget (rawset t k v) k2 = if k2 = k then v else rawget t k2 := by
  unfold rawset
  by_cases hv : v = Value.nil
  · simp only [hv, if_true]
    exact rawget_filter_ne t k k2
  · simp only [hv, if_false]
    by_cases hk : k ∈ t.map Prod.fst
    · simp only [hk, if_true]
      rw [rawget_map_replace]; simp [hk]
    · simp only [hk, if_false]
      exact rawget_append_single t k v k2 hk

theorem rawget_rawset_self (t : Table Num) (k v : Value Num) :
    rawget (rawset t k v) k = v := by
  rw [rawget_rawset]; simp

theorem rawget_rawset_ne (t : Table Num) (k v k2 : Value Num) (h : k2 ≠ k) :
    rawget (rawset t k v) k2 = rawget t k2 := by
  rw [rawget_rawset]; simp [h]

/-! ## Tables built by a sequence of writes -/

theorem rawget_foldl_rawset (mt : Table Num) :
    ∀ (T : Table Num) (k : Value Num), (mt.map Prod.fst).Nodup →
      rawget (mt.foldl (fun T x => rawset T x.1 x.2) T) k
        = if k ∈ mt.map Prod.fst then rawget mt k else rawget T k := by
  induction mt with
  | nil => intro T k _; simp
  | cons x mt ih =>
    intro T k hnd
    obtain ⟨a, b⟩ := x
    simp only [List.map_cons, List.nodup_cons] at hnd
    simp only [List.foldl_cons, ih _ k hnd.2, rawget_rawset, List.map_cons, List.mem_cons,
      rawget_cons]
    by_cases hka : k = a
    · subst hka
      simp [hnd.1]
    · have hak : ¬ a = k := fun h => hka h.symm
      simp only [hka, hak, if_false, false_or]

/-- The fields of the environment table. -/
theorem rawget_envTable (mt : Table Num) (m : Nat) (k : Value Num)
    (hnd : (mt.map Prod.fst).Nodup) :
    rawget (envTable mt m) k
      = if k ∈ mt.map Prod.fst then rawget mt k
        else if k = Value.str "math" then Value.table m else Value.nil := by
  unfold envTable
  rw [rawget_foldl_rawset mt _ k hnd, rawget_rawset]
  simp [rawget]


/-! ## The API calls on a stack of known shape -/

@[simp] theorem Heap.setTable_tables (H : Heap Num) (r : Nat) (t : Table Num) (i : Nat) :
    (H.setTable r t).tables i = if i = r then t else H.tables i := rfl

@[simp] theorem Heap.setTable_funcs (H : Heap Num) (r : Nat) (t : Table Num) :
    (H.setTable r t).funcs = H.funcs := rfl

@[simp] theorem Heap.setTable_fresh (H : Heap Num) (r : Nat) (t : Table Num) :
    (H.setTable r t).fresh = H.fresh := rfl

@[simp] theorem Heap.setTable_rng (H : Heap Num) (r : Nat) (t : Table Num) :
    (H.setTable r t).rng = H.rng := rfl

@[simp] theorem Heap.setFunc_tables (H : Heap Num) (r : Nat) (f : FuncObj) :
    (H.setFunc r f).tables = H.tables := rfl

@[simp] theorem Heap.setFunc_funcs (H : Heap Num) (r : Nat) (f : FuncObj) (i : Nat) :
    (H.setFunc r f).funcs i = if i = r then f else H.funcs i := rfl

@[simp] theorem Heap.setFunc_fresh (H : Heap Num) (r : Nat) (f : FuncObj) :
    (H.setFunc r f).fresh = H.fresh := rfl

@[simp] theorem index2adr_top (H : Heap Num) (a : Value Num) (s : List (Value Num)) (n : Nat) :
    index2adr ⟨H, a :: s, n⟩ (-1) = some a := rfl

@[simp] theorem index2adr_second (H : Heap Num) (a b : Value Num) (s : List (Value Num))
    (n : Nat) : index2adr ⟨H, a :: b :: s, n⟩ (-2) = some b := rfl

@[simp] theorem index2adr_third (H : Heap Num) (a b c : Value Num) (s : List (Value Num))
    (n : Nat) : index2adr ⟨H, a :: b :: c :: s, n⟩ (-3) = some c := rfl

@[simp] theorem index2adr_sixth (H : Heap Num) (a b c d e f : Value Num)
    (s : List (Value Num)) (n : Nat) :
    index2adr ⟨H, a :: b :: c :: d :: e :: f :: s, n⟩ (-6) = some f := rfl

@[simp] theorem lua_pop_one (H : Heap Num) (a : Value Num) (s : List (Value Num)) (n : Nat) :
    lua_pop ⟨H, a :: s, n⟩ 1 = some ⟨H, s, n⟩ := by
  simp [lua_pop, lua_settop]

@[simp] theorem lua_getglobal_mk (H : Heap Num) (s : List (Value Num)) (n : Nat)
    (name : String) : lua_getglobal ⟨H, s, n⟩ name = ⟨H, H.global name :: s, n⟩ := rfl

@[simp] theorem lua_pushnil_mk (H : Heap Num) (s : List (Value Num)) (n : Nat) :
    lua_pushnil ⟨H, s, n⟩ = ⟨H, Value.nil :: s, n⟩ := rfl

@[simp] theorem lua_pushstring_mk (H : Heap Num) (s : List (Value Num)) (n : Nat)
    (x : String) : lua_pushstring ⟨H, s, n⟩ x = ⟨H, Value.str x :: s, n⟩ := rfl

@[simp] theorem lua_pushnumber_mk (H : Heap Num) (s : List (Value Num)) (n : Nat)
    (x : Num) : lua_pushnumber ⟨H, s, n⟩ x = ⟨H, Value.num x :: s, n⟩ := rfl

@[simp] theorem lua_pushinteger_mk (D : Deps Num) (H : Heap Num) (s : List (Value Num))
    (n : Nat) (x : Int) : lua_pushinteger D ⟨H, s, n⟩ x = ⟨H, Value.num (D.ofInt x) :: s, n⟩ := rfl

@[simp] theorem lua_setglobal_mk (H : Heap Num) (v : Value Num) (s : List (Value Num))
    (n : Nat) (name : String) :
    lua_setglobal ⟨H, v :: s, n⟩ name
      = some ⟨H.setTable 0 (rawset (H.tables 0) (Value.str name) v), s, n⟩ := rfl

@[simp] theorem lua_createtable_mk (H : Heap Num) (s : List (Value Num)) (n a b : Nat) :
    lua_createtable ⟨H, s, n⟩ a b
      = ⟨{ H.setTable H.fresh [] with fresh := H.fresh + 1 }, Value.table H.fresh :: s, n⟩ := rfl

@[simp] theorem lua_settable_third (H : Heap Num) (v k : Value Num) (r : Nat)
    (s : List (Value Num)) (n : Nat) :
    lua_settable ⟨H, v :: k :: Value.table r :: s, n⟩ (-3)
      = if k = Value.nil then none
        else some ⟨H.setTable r (rawset (H.tables r) k v), Value.table r :: s, n⟩ := rfl

@[simp] theorem lua_gettable_second (H : Heap Num) (k : Value Num) (r : Nat)
    (s : List (Value Num)) (n : Nat) :
    lua_gettable ⟨H, k :: Value.table r :: s, n⟩ (-2)
      = some ⟨H, rawget (H.tables r) k :: Value.table r :: s, n⟩ := rfl

@[simp] theorem lua_isnil_top (H : Heap Num) (v : Value Num) (s : List (Value Num)) (n : Nat) :
    lua_isnil ⟨H, v :: s, n⟩ (-1) = decide (v = Value.nil) := by
  cases v <;> rfl

theorem lua_isfunction_top (H : Heap Num) (v : Value Num) (s : List (Value Num)) (n : Nat) :
    lua_isfunction ⟨H, v :: s, n⟩ (-1) = true ↔ ∃ f, v = Value.func f := by
  cases v <;> simp [lua_isfunction]

/-- The test `lua_isstring` holds exactly when `lua_tostring` is not `NULL`. -/
theorem lua_isstring_eq (D : Deps Num) (L : LState Num) (idx : Int) :
    lua_isstring L idx = (lua_tostring D L idx).isSome := by
  unfold lua_isstring lua_tostring
  cases h : index2adr L idx with
  | none => rfl
  | some v => cases v <;> rfl

theorem lua_pcall_one_func (D : Deps Num) (H : Heap Num) (a : Value Num) (f : Nat)
    (s : List (Value Num)) (n k : Nat) :
    lua_pcall D ⟨H, a :: Value.func f :: s, n⟩ 1 k
      = match D.call f [a] H with
        | none => none
        | some (H2, Except.ok rs) => some (true, ⟨H2, (adjust k rs).reverse ++ s, n⟩)
        | some (H2, Except.error e) => some (false, ⟨H2, e :: s, n⟩) := by
  have h : ¬ (s.length + 1 + 1 < 1 + 1) := by omega
  simp only [lua_pcall, List.length_cons, h, if_false, List.take, List.drop, List.reverse_cons,
    List.reverse_nil, List.nil_append]

theorem lua_pcall_zero_func (D : Deps Num) (H : Heap Num) (f : Nat)
    (s : List (Value Num)) (n k : Nat) :
    lua_pcall D ⟨H, Value.func f :: s, n⟩ 0 k
      = match D.call f [] H with
        | none => none
        | some (H2, Except.ok rs) => some (true, ⟨H2, (adjust k rs).reverse ++ s, n⟩)
        | some (H2, Except.error e) => some (false, ⟨H2, e :: s, n⟩) := by
  have h : ¬ (s.length + 1 < 0 + 1) := by omega
  simp only [lua_pcall, List.length_cons, h, if_false, List.take, List.drop, List.reverse_nil]

theorem adjust_zero (rs : List (Value Num)) : adjust 0 rs = [] := by
  simp [adjust]

/-! ## The names bound in the globals -/

theorem snprintf_fit (buf : String) (size : Nat) (out : String) (h : out.length < size) :
    snprintf buf size out = out := by
  unfold snprintf
  have h0 : size ≠ 0 := by omega
  have hl : out.data.length ≤ size - 1 := by
    have : out.data.length = out.length := rfl
    omega
  simp [h0, List.take_of_length_le hl]

theorem pvnName_data (d : Bool) (h : Nat) :
    (pvnName d h).data = 'p' :: 'v' :: 'n' :: ((if d then "1" else "0") ++ "_" ++ toString h).data := by
  simp [pvnName, String.data_append, String.append_assoc]

theorem pvfName_data (d : Bool) (h : Nat) :
    (pvfName d h).data
      = 'p' :: 'v' :: 'n' :: (((if d then "1" else "0") ++ "_" ++ toString h).data ++ ['_', 'f']) := by
  simp [pvfName, pvnName, String.data_append, String.append_assoc]

theorem pvfName_ne_pvnName (d : Bool) (h : Nat) : pvfName d h ≠ pvnName d h := by
  intro e
  have := congrArg String.length e
  simp only [pvfName, String.length_append] at this
  have h2 : "_f".length = 2 := by decide
  omega

theorem pvnName_ne_process (d : Bool) (h : Nat) : pvnName d h ≠ "process" := by
  intro e
  have := congrArg String.data e
  rw [pvnName_data] at this
  simp at this

theorem pvfName_ne_process (d : Bool) (h : Nat) : pvfName d h ≠ "process" := by
  intro e
  have := congrArg String.data e
  rw [pvfName_data] at this
  simp at this

theorem pvnName_ne_math (d : Bool) (h : Nat) : pvnName d h ≠ "math" := by
  intro e
  have := congrArg String.data e
  rw [pvnName_data] at this
  simp at this

theorem pvfName_ne_math (d : Bool) (h : Nat) : pvfName d h ≠ "math" := by
  intro e
  have := congrArg String.data e
  rw [pvfName_data] at this
  simp at this

/-- The state-table name chosen by `selectState`. -/
theorem selectState_stateName (D : Deps Num) (W : Statics Num) (s : EvaluatorState Num)
    (d : Bool) :
    (selectState D W s d).2.2.stateName
      = snprintf s.stateName D.TXT_SIZE
          ((if d then "dispstate_" else "audiostate_") ++ toString (if d then W.did else W.aid)) := by
  cases d <;> rfl

/-- A state-table name starts with `a` or `d` once the buffer holds a character. -/
theorem stateName_head (buf : String) (size : Nat) (d : Bool) (x : String) (hT : 2 ≤ size) :
    (snprintf buf size ((if d then "dispstate_" else "audiostate_") ++ x)).data.head?
      = some (if d then 'd' else 'a') := by
  unfold snprintf
  have h0 : size ≠ 0 := by omega
  obtain ⟨k, rfl⟩ : ∃ k, size = k + 2 := ⟨size - 2, by omega⟩
  cases d <;> simp [String.data_append, List.take]

theorem stateName_ne_of_head (buf : String) (size : Nat) (d : Bool) (x y : String)
    (hT : 2 ≤ size) (c : Char) (hy : y.data.head? = some c) (hc : c ≠ 'a' ∧ c ≠ 'd') :
    snprintf buf size ((if d then "dispstate_" else "audiostate_") ++ x) ≠ y := by
  intro e
  have h := stateName_head buf size d x hT
  rw [e, hy] at h
  cases d <;> simp at h
  · exact hc.1 h
  · exact hc.2 h

theorem pvfName_length (d : Bool) (h : Nat) : 2 ≤ (pvfName d h).length := by
  have : (pvfName d h).length = (pvfName d h).data.length := rfl
  rw [this, pvfName_data]
  simp

/-! ## The phases of `prepareForEvaluation` -/

theorem snprintf_idem (buf : String) (size : Nat) (out : String) :
    snprintf (snprintf buf size out) size out = snprintf buf size out := by
  unfold snprintf
  by_cases h : size = 0 <;> simp [h]

theorem selectState_eq (D : Deps Num) (W : Statics Num) (s : EvaluatorState Num) (d : Bool) :
    selectState D W s d
      = ((if d then { W with displayState := some (W.current D Ctx.display), did := bumpId W.did }
          else { W with audioState := some (W.current D Ctx.audio), aid := bumpId W.aid }),
         W.current D (ctxOf d),
         { s with
           L := some (ctxOf d)
           stateName := snprintf s.stateName D.TXT_SIZE
             ((if d then "dispstate_" else "audiostate_")
               ++ toString (if d then W.did else W.aid)) }) := by
  cases d <;> rfl

/-- Cache hit: `resolveFormula` leaves the interpreter as it was and marks the
state valid. -/
theorem resolveFormula_hit (D : Deps Num) (fs : FormulaModulatorStorage)
    (s : EvaluatorState Num) (d : Bool) (L : LState Num)
    (hhit : L.heap.global (pvnName d fs.formulaHash) = Value.str fs.formulaString) :
    resolveFormula D fs s d L
      = some (L, { s with
          funcName := snprintf s.funcName D.TXT_SIZE (pvfName d fs.formulaHash)
          isvalid := true }) := by
  obtain ⟨H, stk, n⟩ := L
  simp only at hhit
  simp [resolveFormula, lua_isstring, lua_tostring, hhit, snprintf_idem]

/-- Binding the state table of a valid state. -/
theorem makeStateTable_valid (L : LState Num) (s : EvaluatorState Num) (hv : s.isvalid = true)
    (h0 : 0 < L.heap.fresh) :
    makeStateTable L s
      = some ⟨{ (L.heap.setTable L.heap.fresh []).setTable 0
                  (rawset (L.heap.tables 0) (Value.str s.stateName) (Value.table L.heap.fresh)) with
                fresh := L.heap.fresh + 1 }, L.stack, L.loads⟩ := by
  obtain ⟨H, stk, n⟩ := L
  have h1 : ¬ (0 = H.fresh) := by simp only at h0; omega
  simp [makeStateTable, hv, Heap.setTable, h1]

theorem makeStateTable_invalid (L : LState Num) (s : EvaluatorState Num)
    (hv : s.isvalid = false) : makeStateTable L s = some L := by
  simp [makeStateTable, hv]

/-- Seeding with a well-behaved `math.randomseed` changes only hidden state. -/
theorem seedRNG_inert (D : Deps Num) (L : LState Num) (m f : Nat)
    (hmath : L.heap.global "math" = Value.table m)
    (hrs : rawget (L.heap.tables m) (Value.str "randomseed") = Value.func f)
    (hc : SeedCallInert D (L.heap.funcs f).code) :
    ∃ L2, seedRNG D L = some L2 ∧ L2.heap.tables = L.heap.tables ∧
      L2.heap.funcs = L.heap.funcs ∧ L2.heap.fresh = L.heap.fresh ∧
      L2.stack = L.stack ∧ L2.loads = L.loads := by
  obtain ⟨H, stk, n⟩ := L
  simp only at hmath hrs hc
  obtain ⟨H2, rs, hcall, ht, hf, hfr⟩ := hc f H rfl
  refine ⟨⟨H2, stk, n⟩, ?_, ht, hf, hfr, rfl, rfl⟩
  simp [seedRNG, hmath, hrs, lua_pcall_one_func, hcall, adjust_zero]

/-- What `installProcess` does to the evaluator state. -/
theorem installProcess_state (L L1 : LState Num) (s s1 : EvaluatorState Num)
    (h : installProcess L s = some (L1, s1)) :
    s1 = { s with isvalid := true } ∨
      s1 = { s.adderror
              ("After parsing formula, no function 'process' present. You must define " ++
                "a function called 'process' in your LUA.") with isvalid := false } := by
  unfold installProcess at h
  simp only [Option.pure_def, Option.bind_eq_bind] at h
  split at h
  · left
    repeat' split at h
    all_goals first | (injection h with h; injection h with _ h; exact h.symm) | exact absurd h (by simp)
  · right
    repeat' split at h
    all_goals first | (injection h with h; injection h with _ h; exact h.symm) | exact absurd h (by simp)

/-- The two outcomes of the hash lookup at the head of `resolveFormula`. -/
theorem resolveFormula_eq (D : Deps Num) (fs : FormulaModulatorStorage)
    (s : EvaluatorState Num) (d : Bool) (L : LState Num) :
    resolveFormula D fs s d L
      = if lua_tostring D (lua_getglobal L (pvnName d fs.formulaHash)) (-1)
            = some fs.formulaString then
          some (L, { s with
            funcName := snprintf s.funcName D.TXT_SIZE (pvfName d fs.formulaHash)
            isvalid := true })
        else
          compileFormula D fs (pvnName d fs.formulaHash) L
            (if lua_isstring (lua_getglobal L (pvnName d fs.formulaHash)) (-1) then
              ({ s with
                  funcName := snprintf s.funcName D.TXT_SIZE (pvfName d fs.formulaHash)
                  isvalid := false }).adderror "Hash Collision in function. Bad luck!"
             else
              { s with
                funcName := snprintf s.funcName D.TXT_SIZE (pvfName d fs.formulaHash)
                isvalid := false }) := by
  have hpop : lua_pop (lua_getglobal L (pvnName d fs.formulaHash)) 1 = some L := by
    obtain ⟨H, stk, n⟩ := L
    simp
  unfold resolveFormula
  simp only [hpop, Option.pure_def]
  by_cases h2 : lua_tostring D (lua_getglobal L (pvnName d fs.formulaHash)) (-1)
      = some fs.formulaString
  · have h1 : lua_isstring (lua_getglobal L (pvnName d fs.formulaHash)) (-1) = true := by
      rw [lua_isstring_eq D, h2]; rfl
    simp [h1, h2, snprintf_idem]
  · have h3 : ¬ (some fs.formulaString
        = lua_tostring D (lua_getglobal L (pvnName d fs.formulaHash)) (-1)) :=
      fun e => h2 e.symm
    by_cases h1 : lua_isstring (lua_getglobal L (pvnName d fs.formulaHash)) (-1) = true
    · simp [h1, h2, h3]
    · simp [h1, h2]

/-! ## The copy loop -/

theorem Heap.setTable_setTable (H : Heap Num) (r : Nat) (t1 t2 : Table Num) :
    (H.setTable r t1).setTable r t2 = H.setTable r t2 := by
  unfold Heap.setTable
  congr 1
  funext i
  by_cases h : i = r <;> simp [h]

theorem nextEntry_cons (e : Value Num × Value Num) (t : Table Num) (k : Value Num)
    (hk : k ≠ Value.nil) :
    nextEntry (e :: t) k = if e.1 = k then some t.head? else nextEntry t k := by
  obtain ⟨a, b⟩ := e
  cases k <;> first | exact absurd rfl hk | rfl

theorem nextEntry_after (pre suf : Table Num) (k v : Value Num) (hk : k ≠ Value.nil)
    (hnot : k ∉ pre.map Prod.fst) :
    nextEntry (pre ++ (k, v) :: suf) k = some suf.head? := by
  induction pre with
  | nil => simp [nextEntry_cons _ _ _ hk]
  | cons e pre ih =>
    have h1 : e.1 ≠ k := fun h => hnot (by simp [← h])
    have h2 : k ∉ pre.map Prod.fst := fun h => hnot (by simp only [List.map_cons, List.mem_cons]; exact Or.inr h)
    simp only [List.cons_append, nextEntry_cons _ _ _ hk, h1, if_false]
    exact ih h2

theorem lua_next_second (H : Heap Num) (k : Value Num) (r : Nat) (s : List (Value Num))
    (n : Nat) :
    lua_next ⟨H, k :: Value.table r :: s, n⟩ (-2)
      = match nextEntry (H.tables r) k with
        | none => none
        | some none => some (false, ⟨H, Value.table r :: s, n⟩)
        | some (some (k1, v1)) => some (true, ⟨H, v1 :: k1 :: Value.table r :: s, n⟩) := rfl

/-- The table the copy loop builds from the entries still to be visited. -/
theorem copyLoop_spec (H : Heap Num) (m e : Nat) (hme : m ≠ e) (rest : List (Value Num))
    (n : Nat) (suf : Table Num) :
    ∀ (pre T : Table Num) (key : Value Num) (fuel : Nat),
      H.tables m = pre ++ suf →
      ((pre ++ suf).map Prod.fst).Nodup →
      Value.nil ∉ (pre ++ suf).map Prod.fst →
      ((key = Value.nil ∧ pre = []) ∨ ∃ v p, pre = p ++ [(key, v)]) →
      suf.length < fuel →
      copyLoop fuel ⟨H.setTable e T, key :: Value.table m :: Value.table e :: rest, n⟩
        = some ⟨H.setTable e (suf.foldl (fun T x => rawset T x.1 x.2) T),
            Value.table m :: Value.table e :: rest, n⟩ := by
  induction suf with
  | nil =>
    intro pre T key fuel hT hnd hnil hkey hfuel
    obtain ⟨fuel, rfl⟩ : ∃ f, fuel = f + 1 := ⟨fuel - 1, by simp at hfuel; omega⟩
    have hnext : nextEntry (H.tables m) key = some none := by
      rcases hkey with ⟨rfl, rfl⟩ | ⟨v, p, rfl⟩
      · rw [hT]; rfl
      · rw [hT]
        simp only [List.append_nil, List.map_append, List.map_cons, List.map_nil] at hnd hnil ⊢
        have hk : key ≠ Value.nil := fun h => hnil (by simp [h])
        have hnot : key ∉ p.map Prod.fst := by
          intro hin
          have := List.nodup_append.mp hnd
          exact this.2.2 hin (by simp)
        have := nextEntry_after p [] key v hk hnot
        simpa using this
    simp [copyLoop, lua_next_second, hme, hnext]
  | cons x suf ih =>
    intro pre T key fuel hT hnd hnil hkey hfuel
    obtain ⟨k, v⟩ := x
    obtain ⟨fuel, rfl⟩ : ∃ f, fuel = f + 1 := ⟨fuel - 1, by simp at hfuel; omega⟩
    have hk1 : k ≠ Value.nil := fun h => hnil (by simp [h])
    have hnext : nextEntry (H.tables m) key = some (some (k, v)) := by
      rcases hkey with ⟨rfl, rfl⟩ | ⟨v0, p, rfl⟩
      · rw [hT]; rfl
      · rw [hT]
        have hk : key ≠ Value.nil := fun h => hnil (by simp [h])
        have hnot : key ∉ p.map Prod.fst := by
          intro hin
          simp only [List.map_append, List.map_cons, List.map_nil, List.append_assoc] at hnd
          have := List.nodup_append.mp hnd
          exact this.2.2 hin (by simp)
        have := nextEntry_after p ((k, v) :: suf) key v0 hk hnot
        simpa using this
    have hstep := ih (pre ++ [(k, v)]) (rawset T k v) k fuel
      (by rw [hT]; simp) (by simpa using hnd) (by simpa using hnil)
      (Or.inr ⟨v, pre, rfl⟩) (by simp at hfuel; omega)
    simp only [copyLoop, lua_next_second, Heap.setTable_tables, hme, if_false, hnext,
      Option.pure_def, Option.bind_eq_bind]
    simp only [lua_pushvalue, index2adr_second, Option.map_some', push, index2adr_sixth,
      lua_settable, lua_pop_one, hk1, if_false, Heap.setTable_tables, if_true,
      Heap.setTable_setTable]
    simpa using hstep

/-! ## Installing a compiled `process` -/

theorem Heap.fresh_setTable (H : Heap Num) (r k : Nat) (t : Table Num) :
    ({ H.setTable r t with fresh := k } : Heap Num) = ({ H with fresh := k } : Heap Num).setTable r t :=
  rfl

/-- The state `installProcess` leaves when `process` is a function and the math
library is intact. -/
theorem installProcess_ok (H : Heap Num) (stk : List (Value Num)) (n : Nat)
    (s : EvaluatorState Num) (g m : Nat)
    (hp : H.global "process" = Value.func g)
    (hm : MathIntact H m)
    (hn1 : s.funcName ≠ "process") (hn2 : s.funcName ≠ "math") :
    installProcess ⟨H, stk, n⟩ s
      = some (⟨(({ H with fresh := H.fresh + 1 } : Heap Num).setTable 0
                  (rawset (rawset (H.tables 0) (Value.str s.funcName) (Value.func g))
                    (Value.str "process") Value.nil)
                |>.setTable H.fresh (envTable (H.tables m) m)
                |>.setFunc g { H.funcs g with env := H.fresh }), stk, n⟩,
              { s with isvalid := true }) := by
  obtain ⟨hmath, hm0, hmf, hnd, hnil⟩ := hm
  have he0 : ¬ (0 = H.fresh) := by omega
  have hme : m ≠ H.fresh := by omega
  have hfn : rawget (rawset (rawset (H.tables 0) (Value.str s.funcName) (Value.func g))
      (Value.str "process") Value.nil) (Value.str s.funcName) = Value.func g := by
    rw [rawget_rawset_ne _ _ _ _ (by simpa using hn1), rawget_rawset_self]
  have hmg : rawget (rawset (rawset (H.tables 0) (Value.str s.funcName) (Value.func g))
      (Value.str "process") Value.nil) (Value.str "math") = Value.table m := by
    rw [rawget_rawset_ne _ _ _ _ (by simp),
      rawget_rawset_ne _ _ _ _ (by simpa using fun h => hn2 h.symm)]
    exact hmath
  have hloop := copyLoop_spec
    (({ H with fresh := H.fresh + 1 } : Heap Num).setTable 0
      (rawset (rawset (H.tables 0) (Value.str s.funcName) (Value.func g))
        (Value.str "process") Value.nil))
    m H.fresh hme (Value.func g :: stk) n (H.tables m) [] 
    (rawset [] (Value.str "math") (Value.table m)) Value.nil ((H.tables m).length + 1)
    (by simp [hm0]) (by simpa using hnd) (by simpa using hnil) (Or.inl ⟨rfl, rfl⟩) (by omega)
  simp only [Heap.global] at hp hmath
  unfold installProcess
  simp only [lua_getglobal_mk, Heap.global, hp, lua_isfunction, index2adr_top, if_true,
    lua_setglobal_mk, lua_pushnil_mk, Heap.setTable_tables, Heap.setTable_setTable, hfn,
    lua_createtable_mk, lua_pushstring_mk, Heap.fresh_setTable, Heap.setTable_fresh, he0,
    if_false, hmg, lua_settable_third]
  have hstr : ¬ ((Value.str "math" : Value Num) = Value.nil) := by simp
  simp only [hstr, if_false, if_true, lua_getglobal_mk, Heap.global, Heap.setTable_tables, he0,
    hmg, lua_pushnil_mk, entriesAt, index2adr_second, hme, hm0, hloop, lua_pop_one, lua_setfenv,
    Heap.setTable_funcs, Option.pure_def, index2adr_second, envTable]

/-! ## Compiling a text -/

theorem lua_pcall_zero_str (D : Deps Num) (H : Heap Num) (msg : String)
    (s : List (Value Num)) (n k : Nat) :
    lua_pcall D ⟨H, Value.str msg :: s, n⟩ 0 k
      = some (false, ⟨H, Value.str ("attempt to call a string value") :: s, n⟩) := by
  have h : ¬ (s.length + 1 < 0 + 1) := by omega
  simp only [lua_pcall, List.length_cons, h, if_false, List.take, List.drop, typeName]
  rfl

/-- Running a chunk counts one compilation; on success the stack is as before,
on failure the error object is left on it. -/
theorem runChunk_spec (D : Deps Num) (L L1 : LState Num) (text : String) (res : Bool)
    (h : runChunk D L text = some (res, L1)) :
    L1.loads = L.loads + 1 ∧ (res = true → L1.stack = L.stack) ∧
      (res = false → ∃ e, L1.stack = e :: L.stack) := by
  obtain ⟨H, stk, n⟩ := L
  unfold runChunk luaL_loadbuffer at h
  cases hc : D.compile text with
  | error msg =>
    simp only [hc, lua_pcall_zero_str, Option.some.injEq, Prod.mk.injEq] at h
    obtain ⟨rfl, rfl⟩ := h
    simp
  | ok c =>
    simp only [hc, lua_pcall_zero_func, adjust_zero, List.reverse_nil, List.nil_append] at h
    split at h
    · exact absurd h (by simp)
    · simp only [Option.some.injEq, Prod.mk.injEq] at h
      obtain ⟨rfl, rfl⟩ := h
      simp
    · simp only [Option.some.injEq, Prod.mk.injEq] at h
      obtain ⟨rfl, rfl⟩ := h
      simp

/-- A text that runs and defines `process`, with the math library intact: the
function is renamed, sandboxed, and the text is stored under `pvn`. -/
theorem compileFormula_ok (D : Deps Num) (fs : FormulaModulatorStorage) (pvn : String)
    (L L1 : LState Num) (s : EvaluatorState Num) (g m : Nat)
    (h : runChunk D L fs.formulaString = some (true, L1))
    (hp : L1.heap.global "process" = Value.func g)
    (hm : MathIntact L1.heap m)
    (hn1 : s.funcName ≠ "process") (hn2 : s.funcName ≠ "math") :
    compileFormula D fs pvn L s
      = some (⟨(({ L1.heap with fresh := L1.heap.fresh + 1 } : Heap Num).setTable 0
                  (rawset (rawset (rawset (L1.heap.tables 0) (Value.str s.funcName) (Value.func g))
                    (Value.str "process") Value.nil) (Value.str pvn) (Value.str fs.formulaString))
                |>.setTable L1.heap.fresh (envTable (L1.heap.tables m) m)
                |>.setFunc g { L1.heap.funcs g with env := L1.heap.fresh }), L1.stack, L1.loads⟩,
              { s with isvalid := true }) := by
  obtain ⟨H1, stk1, n1⟩ := L1
  have he0 : ¬ (0 = H1.fresh) := by
    have := hm.2.2.1
    have := hm.2.1
    simp only at *
    omega
  simp only [compileFormula, h, installProcess_ok H1 stk1 n1 s g m hp hm hn1 hn2, if_true,
    lua_pushstring_mk, lua_setglobal_mk, Option.pure_def, Heap.setFunc_tables,
    Heap.setTable_tables, he0, if_false]
  congr 3
  unfold Heap.setTable Heap.setFunc
  simp only [Heap.mk.injEq, and_true, true_and]
  funext i
  by_cases hi : i = 0
  · subst hi; simp [he0]
  · simp [hi]

/-- The fields `compileFormula` leaves alone. -/
theorem compileFormula_fields (D : Deps Num) (fs : FormulaModulatorStorage) (pvn : String)
    (s s2 : EvaluatorState Num) (L L1 : LState Num)
    (h : compileFormula D fs pvn L s = some (L1, s2)) :
    s2.stateName = s.stateName ∧ s2.L = s.L ∧ s2.songpos = s.songpos ∧
      s2.funcName = s.funcName := by
  unfold compileFormula at h
  simp only [Option.pure_def] at h
  split at h
  · rename_i res La hrun
    split at h
    · rename_i Lb sb hin
      split at h
      · simp only [Option.some.injEq, Prod.mk.injEq] at h
        obtain ⟨-, rfl⟩ := h
        cases res with
        | true =>
          simp only [if_true] at hin
          rcases installProcess_state _ _ _ _ hin with e | e <;> subst e <;>
            simp [EvaluatorState.adderror]
        | false =>
          simp only [Bool.false_eq_true, if_false, Option.some.injEq, Prod.mk.injEq] at hin
          obtain ⟨-, rfl⟩ := hin
          simp [EvaluatorState.adderror]
      · exact absurd h (by simp)
    · exact absurd h (by simp)
  · exact absurd h (by simp)

/-- The fields `resolveFormula` leaves alone, and the callable name it sets. -/
theorem resolveFormula_fields (D : Deps Num) (fs : FormulaModulatorStorage)
    (s s2 : EvaluatorState Num) (d : Bool) (L L1 : LState Num)
    (h : resolveFormula D fs s d L = some (L1, s2)) :
    s2.stateName = s.stateName ∧ s2.L = s.L ∧ s2.songpos = s.songpos ∧
      s2.funcName = snprintf s.funcName D.TXT_SIZE (pvfName d fs.formulaHash) := by
  rw [resolveFormula_eq] at h
  split at h
  · simp only [Option.some.injEq, Prod.mk.injEq] at h
    obtain ⟨-, rfl⟩ := h
    simp
  · have := compileFormula_fields D fs _ _ s2 L L1 h
    split at this <;> simpa [EvaluatorState.adderror] using this

/-! ## `prepareForEvaluation` as a whole -/

theorem Statics.state_setState (W : Statics Num) (c : Ctx) (L : LState Num) :
    (W.setState c L).state c = some L := by
  cases c <;> rfl

theorem pvnName_head (d : Bool) (h : Nat) : (pvnName d h).data.head? = some 'p' := by
  rw [pvnName_data]; rfl

theorem pvfName_head (d : Bool) (h : Nat) : (pvfName d h).data.head? = some 'p' := by
  rw [pvfName_data]; rfl

theorem selectState_head (D : Deps Num) (W : Statics Num) (s : EvaluatorState Num) (d : Bool)
    (hT : 2 ≤ D.TXT_SIZE) :
    (selectState D W s d).2.2.stateName.data.head? = some (if d then 'd' else 'a') := by
  rw [selectState_stateName]
  exact stateName_head _ _ _ _ hT

theorem ne_of_head (x y : String) (c1 c2 : Char) (hx : x.data.head? = some c1)
    (hy : y.data.head? = some c2) (hc : c1 ≠ c2) : x ≠ y := by
  intro e
  rw [e, hy] at hx
  exact hc (Option.some.inj hx).symm

/-- The last steps of `prepareForEvaluation`, from the result of `resolveFormula`:
the only table of the context they change is the table of globals, at the state
name, and (for a valid state) the new state table. -/
theorem prepare_of_resolve (D : Deps Num) (W : Statics Num) (fs : FormulaModulatorStorage)
    (s s2 : EvaluatorState Num) (d : Bool) (L1 : LState Num)
    (hres : resolveFormula D fs (selectState D W s d).2.2 d (W.current D (ctxOf d))
      = some (L1, s2))
    (hT : 2 ≤ D.TXT_SIZE)
    (hfresh : s2.isvalid = true → 0 < L1.heap.fresh)
    (hseed : SeedOk D L1.heap d) :
    ∃ L3, prepareForEvaluation D W fs s d
        = some ((selectState D W s d).1.setState (ctxOf d) L3, resetFields D s2) ∧
      L3.stack = L1.stack ∧ L3.loads = L1.loads ∧ L3.heap.funcs = L1.heap.funcs ∧
      (∀ r, r ≠ 0 → r < L1.heap.fresh → L3.heap.tables r = L1.heap.tables r) ∧
      (∀ k, k ≠ Value.str s2.stateName →
        rawget (L3.heap.tables 0) k = rawget (L1.heap.tables 0) k) ∧
      (s2.isvalid = true →
        L3.heap.global s2.stateName = Value.table L1.heap.fresh ∧
        L3.heap.tables L1.heap.fresh = [] ∧ L3.heap.fresh = L1.heap.fresh + 1) ∧
      (s2.isvalid = false → L3.heap.tables = L1.heap.tables ∧ L3.heap.fresh = L1.heap.fresh) := by
  have hsel : selectState D W s d
      = ((selectState D W s d).1, W.current D (ctxOf d), (selectState D W s d).2.2) := by
    rw [selectState_eq]
  have hname : s2.stateName.data.head? = some (if d then 'd' else 'a') := by
    rw [(resolveFormula_fields D fs _ s2 d _ L1 hres).1]
    exact selectState_head D W s d hT
  have hnm : s2.stateName ≠ "math" :=
    ne_of_head _ _ _ 'm' hname rfl (by cases d <;> decide)
  -- the state after binding the state table
  obtain ⟨L2, hmk, hstack2, hloads2, hfuncs2, htab2, hglob2, hval2, hinv2, hfr2⟩ :
      ∃ L2, makeStateTable L1 s2 = some L2 ∧ L2.stack = L1.stack ∧ L2.loads = L1.loads ∧
        L2.heap.funcs = L1.heap.funcs ∧
        (∀ r, r ≠ 0 → r < L1.heap.fresh → L2.heap.tables r = L1.heap.tables r) ∧
        (∀ k, k ≠ Value.str s2.stateName →
          rawget (L2.heap.tables 0) k = rawget (L1.heap.tables 0) k) ∧
        (s2.isvalid = true →
          L2.heap.global s2.stateName = Value.table L1.heap.fresh ∧
          L2.heap.tables L1.heap.fresh = [] ∧ L2.heap.fresh = L1.heap.fresh + 1) ∧
        (s2.isvalid = false → L2.heap.tables = L1.heap.tables ∧ L2.heap.fresh = L1.heap.fresh) ∧
        L1.heap.fresh ≤ L2.heap.fresh := by
    cases hv : s2.isvalid with
    | false =>
      exact ⟨L1, makeStateTable_invalid L1 s2 hv, rfl, rfl, rfl, fun _ _ _ => rfl,
        fun _ _ => rfl, by simp, by simp, le_refl _⟩
    | true =>
      have hfr := hfresh hv
      have h0 : ¬ (0 = L1.heap.fresh) := by omega
      refine ⟨_, makeStateTable_valid L1 s2 hv hfr, rfl, rfl, rfl, ?_, ?_, ?_, by simp, by simp⟩
      · intro r hr0 hrf
        have : r ≠ L1.heap.fresh := by omega
        simp [hr0, this]
      · intro k hk
        simp [rawget_rawset_ne _ _ _ _ hk]
      · intro _
        have h1 : ¬ (L1.heap.fresh = 0) := fun h => h0 h.symm
        simp [Heap.global, rawget_rawset_self, h0, h1]
  -- the seeding of the display interpreter
  obtain ⟨L3, hsd, hstack3, hloads3, hfuncs3, htab3, hfr3⟩ :
      ∃ L3, (if d = true then seedRNG D L2 else some L2) = some L3 ∧ L3.stack = L2.stack ∧
        L3.loads = L2.loads ∧ L3.heap.funcs = L2.heap.funcs ∧
        L3.heap.tables = L2.heap.tables ∧ L3.heap.fresh = L2.heap.fresh := by
    cases hd : d with
    | false => exact ⟨L2, by simp, rfl, rfl, rfl, rfl, rfl⟩
    | true =>
      obtain ⟨m, ⟨hmath, hm0, hmf, -, -⟩, f, hrs, hinert⟩ := hseed hd
      have hmath2 : L2.heap.global "math" = Value.table m := by
        unfold Heap.global at hmath ⊢
        rw [hglob2 _ (by simpa using fun h => hnm h.symm)]
        exact hmath
      have hrs2 : rawget (L2.heap.tables m) (Value.str "randomseed") = Value.func f := by
        rw [htab2 m hm0 hmf]; exact hrs
      have hin2 : SeedCallInert D (L2.heap.funcs f).code := by
        rw [hfuncs2]; exact hinert
      obtain ⟨L3, h3, ht, hf, hfr, hst, hl⟩ := seedRNG_inert D L2 m f hmath2 hrs2 hin2
      exact ⟨L3, by simpa using h3, hst, hl, hf, ht, hfr⟩
  refine ⟨L3, ?_, ?_, ?_, ?_, ?_, ?_, ?_, ?_⟩
  · unfold prepareForEvaluation
    rw [hsel]
    simp only [hres, hmk, Option.pure_def]
    cases hd : d <;> simp only [hd] at hsd <;> simp at hsd <;> simp [hsd, ctxOf]
  · rw [hstack3, hstack2]
  · rw [hloads3, hloads2]
  · rw [hfuncs3, hfuncs2]
  · intro r hr0 hrf; rw [htab3]; exact htab2 r hr0 hrf
  · intro k hk; rw [htab3]; exact hglob2 k hk
  · intro hv
    obtain ⟨a, b, c⟩ := hval2 hv
    refine ⟨?_, ?_, ?_⟩
    · unfold Heap.global at a ⊢; rw [htab3]; exact a
    · rw [htab3]; exact b
    · rw [hfr3]; exact c
  · intro hv
    obtain ⟨a, b⟩ := hinv2 hv
    exact ⟨by rw [htab3]; exact a, by rw [hfr3]; exact b⟩

/-- Reading a returned `prepareForEvaluation` backwards. -/
theorem prepare_inv (D : Deps Num) (W W2 : Statics Num) (fs : FormulaModulatorStorage)
    (s s2 : EvaluatorState Num) (d : Bool)
    (h : prepareForEvaluation D W fs s d = some (W2, s2)) :
    ∃ L1 s1 L3,
      resolveFormula D fs (selectState D W s d).2.2 d (W.current D (ctxOf d)) = some (L1, s1) ∧
      s2 = resetFields D s1 ∧ W2 = (selectState D W s d).1.setState (ctxOf d) L3 := by
  have hsel : (selectState D W s d).2.1 = W.current D (ctxOf d) := by rw [selectState_eq]
  unfold prepareForEvaluation at h
  simp only [Option.pure_def, hsel] at h
  split at h
  · rename_i L1 s1 hres
    split at h
    · split at h
      · rename_i L3 _
        simp only [Option.some.injEq, Prod.mk.injEq] at h
        exact ⟨L1, s1, L3, hres, h.2.symm, h.1.symm⟩
      · exact absurd h (by simp)
    · exact absurd h (by simp)
  · exact absurd h (by simp)

/-! ## Keeping the library conditions across a step -/

theorem storedSource_eq (D : Deps Num) (L : LState Num) (name : String) :
    lua_tostring D (lua_getglobal L name) (-1) = storedSource D L.heap name := by
  obtain ⟨H, stk, n⟩ := L
  simp only [lua_getglobal_mk, lua_tostring, index2adr_top, storedSource, toStr]
  cases H.global name <;> rfl

theorem mathIntact_transfer (H H2 : Heap Num) (m : Nat)
    (hfresh : H.fresh ≤ H2.fresh) (hmath : H2.global "math" = H.global "math")
    (htab : ∀ r, r ≠ 0 → r < H.fresh → H2.tables r = H.tables r)
    (h : MathIntact H m) : MathIntact H2 m := by
  obtain ⟨a, b, c, d, e⟩ := h
  refine ⟨by rw [hmath]; exact a, b, by omega, ?_, ?_⟩
  · rw [htab m b c]; exact d
  · rw [htab m b c]; exact e

theorem seedInert_transfer (D : Deps Num) (H H2 : Heap Num) (m : Nat)
    (hm0 : m ≠ 0) (hmf : m < H.fresh)
    (htab : ∀ r, r ≠ 0 → r < H.fresh → H2.tables r = H.tables r)
    (hcode : ∀ f, (H2.funcs f).code = (H.funcs f).code)
    (h : SeedInert D H m) : SeedInert D H2 m := by
  obtain ⟨f, hf, hi⟩ := h
  exact ⟨f, by rw [htab m hm0 hmf]; exact hf, by rw [hcode]; exact hi⟩

theorem seedReady_transfer (D : Deps Num) (H H2 : Heap Num) (d : Bool)
    (hfresh : H.fresh ≤ H2.fresh) (hmath : H2.global "math" = H.global "math")
    (htab : ∀ r, r ≠ 0 → r < H.fresh → H2.tables r = H.tables r)
    (hcode : ∀ f, (H2.funcs f).code = (H.funcs f).code)
    (h : SeedReady D H d) : SeedReady D H2 d := by
  obtain ⟨h0, hs⟩ := h
  refine ⟨by omega, fun hd => ?_⟩
  obtain ⟨m, hm, hsi⟩ := hs hd
  exact ⟨m, mathIntact_transfer H H2 m hfresh hmath htab hm,
    seedInert_transfer D H H2 m hm.2.1 hm.2.2.1 htab hcode hsi⟩

/-- The whole of `prepareForEvaluation` on a text that is not a cache hit, runs,
and defines `process`, in a context whose math library is intact. -/
theorem prepare_compiles (D : Deps Num) (W : Statics Num) (fs : FormulaModulatorStorage)
    (s : EvaluatorState Num) (d : Bool) (L1 : LState Num) (g m : Nat)
    (hfit : (pvfName d fs.formulaHash).length < D.TXT_SIZE)
    (hmiss : storedSource D (W.current D (ctxOf d)).heap (pvnName d fs.formulaHash)
      ≠ some fs.formulaString)
    (hrun : runChunk D (W.current D (ctxOf d)) fs.formulaString = some (true, L1))
    (hp : L1.heap.global "process" = Value.func g)
    (hm : MathIntact L1.heap m)
    (hseed : d = true → SeedInert D L1.heap m) :
    ∃ W2 s2 L2, prepareForEvaluation D W fs s d = some (W2, s2) ∧
      W2.state (ctxOf d) = some L2 ∧
      s2.isvalid = true ∧ s2.funcName = pvfName d fs.formulaHash ∧
      s2.error = (if (storedSource D (W.current D (ctxOf d)).heap
                        (pvnName d fs.formulaHash)).isSome
                    then s.error ++ "Hash Collision in function. Bad luck!" else s.error) ∧
      s2.raisedError = (s.raisedError ||
        (storedSource D (W.current D (ctxOf d)).heap (pvnName d fs.formulaHash)).isSome) ∧
      L2.loads = (W.current D (ctxOf d)).loads + 1 ∧
      L2.heap.global (pvfName d fs.formulaHash) = Value.func g ∧
      L2.heap.global (pvnName d fs.formulaHash) = Value.str fs.formulaString ∧
      L2.heap.global "process" = Value.nil ∧
      L2.heap.global "math" = Value.table m ∧
      L2.heap.funcs g = { L1.heap.funcs g with env := L1.heap.fresh } ∧
      (∀ f, f ≠ g → L2.heap.funcs f = L1.heap.funcs f) ∧
      L2.heap.tables L1.heap.fresh = envTable (L1.heap.tables m) m ∧
      (∀ r, r ≠ 0 → r < L1.heap.fresh → L2.heap.tables r = L1.heap.tables r) := by
  have hT : 2 ≤ D.TXT_SIZE := by
    have := pvfName_length d fs.formulaHash
    omega
  have hl := (runChunk_spec D _ L1 _ true hrun).1
  have hserr : (selectState D W s d).2.2.error = s.error := by rw [selectState_eq]
  have hsre : (selectState D W s d).2.2.raisedError = s.raisedError := by rw [selectState_eq]
  have hiss : lua_isstring (lua_getglobal (W.current D (ctxOf d))
      (pvnName d fs.formulaHash)) (-1)
      = (storedSource D (W.current D (ctxOf d)).heap (pvnName d fs.formulaHash)).isSome := by
    rw [lua_isstring_eq D, storedSource_eq]
  have hres0 := resolveFormula_eq D fs (selectState D W s d).2.2 d (W.current D (ctxOf d))
  rw [storedSource_eq, if_neg hmiss, hiss, snprintf_fit _ _ _ hfit] at hres0
  -- the state handed to `compileFormula`
  generalize hsx : (if (storedSource D (W.current D (ctxOf d)).heap
      (pvnName d fs.formulaHash)).isSome = true then
        ({ (selectState D W s d).2.2 with
            funcName := pvfName d fs.formulaHash, isvalid := false }).adderror
          "Hash Collision in function. Bad luck!"
      else { (selectState D W s d).2.2 with
            funcName := pvfName d fs.formulaHash, isvalid := false }) = sx at hres0
  have hsxf : sx.funcName = pvfName d fs.formulaHash := by
    rw [← hsx]; split <;> rfl
  have hsxn : sx.stateName = (selectState D W s d).2.2.stateName := by
    rw [← hsx]; split <;> rfl
  have hsxe : sx.error = (if (storedSource D (W.current D (ctxOf d)).heap
      (pvnName d fs.formulaHash)).isSome
      then s.error ++ "Hash Collision in function. Bad luck!" else s.error) := by
    rw [← hsx]; split <;> simp [EvaluatorState.adderror, hserr]
  have hsxr : sx.raisedError = (s.raisedError ||
      (storedSource D (W.current D (ctxOf d)).heap (pvnName d fs.formulaHash)).isSome) := by
    rw [← hsx]
    split
    · rename_i h; simp [EvaluatorState.adderror, h]
    · rename_i h; simp [hsre, h]
  rw [compileFormula_ok D fs _ _ L1 sx g m hrun hp hm
    (by rw [hsxf]; exact pvfName_ne_process _ _) (by rw [hsxf]; exact pvfName_ne_math _ _)]
    at hres0
  obtain ⟨hmath, hm0, hmf, hnd, hnil⟩ := hm
  have he0 : ¬ (0 = L1.heap.fresh) := by omega
  have hme : ¬ (m = L1.heap.fresh) := by omega
  have hgm : rawget (rawset (rawset (rawset (L1.heap.tables 0) (Value.str sx.funcName)
      (Value.func g)) (Value.str "process") Value.nil)
      (Value.str (pvnName d fs.formulaHash)) (Value.str fs.formulaString)) (Value.str "math")
      = Value.table m := by
    rw [rawget_rawset_ne _ _ _ _ (by simpa using (pvnName_ne_math d fs.formulaHash).symm),
      rawget_rawset_ne _ _ _ _ (by simp),
      rawget_rawset_ne _ _ _ _
        (by rw [hsxf]; simpa using (pvfName_ne_math d fs.formulaHash).symm)]
    exact hmath
  have hready : SeedReady D
      (((({ L1.heap with fresh := L1.heap.fresh + 1 } : Heap Num).setTable 0
        (rawset (rawset (rawset (L1.heap.tables 0) (Value.str sx.funcName) (Value.func g))
          (Value.str "process") Value.nil) (Value.str (pvnName d fs.formulaHash))
          (Value.str fs.formulaString))).setTable L1.heap.fresh
        (envTable (L1.heap.tables m) m)).setFunc g { L1.heap.funcs g with env := L1.heap.fresh })
      d := by
    refine seedReady_transfer D L1.heap _ d (by simp) ?_ ?_ ?_
      ⟨by omega, fun hd => ⟨m, ⟨hmath, hm0, hmf, hnd, hnil⟩, hseed hd⟩⟩
    · simp only [Heap.global, Heap.setFunc_tables, Heap.setTable_tables, he0, if_false, if_true,
        hgm]
      exact hmath.symm
    · intro r hr0 hrf
      have : ¬ (r = L1.heap.fresh) := by omega
      simp [hr0, this]
    · intro f
      by_cases hfg : f = g <;> simp [hfg]
  obtain ⟨L3, hprep, -, hloads, hfuncs, htab, hglob, -, -⟩ :=
    prepare_of_resolve D W fs s _ d _ hres0 hT (fun _ => hready.1) hready.2
  have hname : (selectState D W s d).2.2.stateName.data.head?
      = some (if d then 'd' else 'a') := selectState_head D W s d hT
  have hpd : ∀ (x : String) (c : Char), x.data.head? = some c → c ≠ 'a' ∧ c ≠ 'd' →
      (Value.str x : Value Num) ≠ Value.str sx.stateName := by
    intro x c hx hc e
    have e2 : x = (selectState D W s d).2.2.stateName := by rw [← hsxn]; simpa using e
    exact ne_of_head _ _ _ _ hx hname (by cases d <;> simp [hc.1, hc.2]) e2
  simp only [Heap.setFunc_tables, Heap.setTable_tables, Heap.setFunc_funcs, Heap.setTable_funcs,
    Heap.setTable_fresh, Heap.setFunc_fresh] at hloads hfuncs htab hglob
  refine ⟨_, _, L3, hprep, Statics.state_setState _ _ _, rfl, ?_, ?_, ?_, ?_, ?_, ?_, ?_, ?_, ?_,
    ?_, ?_, ?_⟩
  · simp only [resetFields]; exact hsxf
  · simp only [resetFields]; exact hsxe
  · simp only [resetFields]; exact hsxr
  · rw [hloads]; exact hl
  · unfold Heap.global
    rw [hglob _ (hpd _ 'p' (pvfName_head _ _) (by decide))]
    simp only [he0, if_false, if_true]
    rw [rawget_rawset_ne _ _ _ _ (by simpa using pvfName_ne_pvnName d fs.formulaHash),
      rawget_rawset_ne _ _ _ _ (by simpa using pvfName_ne_process d fs.formulaHash),
      hsxf, rawget_rawset_self]
  · unfold Heap.global
    rw [hglob _ (hpd _ 'p' (pvnName_head _ _) (by decide))]
    simp only [he0, if_false, if_true]
    rw [rawget_rawset_self]
  · unfold Heap.global
    rw [hglob _ (hpd "process" 'p' rfl (by decide))]
    simp only [he0, if_false, if_true]
    rw [rawget_rawset_ne _ _ _ _ (by simpa using (pvnName_ne_process d fs.formulaHash).symm),
      rawget_rawset_self]
  · unfold Heap.global
    rw [hglob _ (hpd "math" 'm' rfl (by decide))]
    simp only [he0, if_false, if_true]
    exact hgm
  · rw [hfuncs]; simp
  · intro f hfg
    rw [hfuncs]; simp [hfg]
  · have := htab L1.heap.fresh (fun h => he0 h.symm) (by simp)
    rw [this]; simp
  · intro r hr0 hrf
    have hre : ¬ (r = L1.heap.fresh) := by omega
    rw [htab r hr0 (by omega)]
    simp [hre, hr0]

/-! ## A prepare of a text that fails -/

/-- Lines 278-310 write exactly the call inputs into the state table. -/
theorem pushInputs_eq (D : Deps Num) (H : Heap Num) (stk : List (Value Num)) (n : Nat)
    (phaseIntPart : Int) (phaseFracPart : Num) (s : EvaluatorState Num) (t : Nat)
    (ht : H.global s.stateName = Value.table t) :
    pushInputs D ⟨H, stk, n⟩ phaseIntPart phaseFracPart s
      = some ⟨H.setTable t (inputsTable D (H.tables t) phaseIntPart phaseFracPart s),
          Value.table t :: stk, n⟩ := by
  have hs : ∀ q : String, ¬ ((Value.str q : Value Num) = Value.nil) := by
    intro q; simp
  have hn : ∀ (H : Heap Num) (stk : List (Value Num)) (q : String) (x : Num),
      addn ⟨H, Value.table t :: stk, n⟩ q x
        = some ⟨H.setTable t (rawset (H.tables t) (Value.str q) (Value.num x)),
            Value.table t :: stk, n⟩ := by
    intro H stk q x
    simp only [addn, lua_pushstring_mk, lua_pushnumber_mk, lua_settable_third, hs, if_false]
  have hz : ∀ (H : Heap Num) (stk : List (Value Num)) (q : String),
      addnil ⟨H, Value.table t :: stk, n⟩ q
        = some ⟨H.setTable t (rawset (H.tables t) (Value.str q) Value.nil),
            Value.table t :: stk, n⟩ := by
    intro H stk q
    simp only [addnil, lua_pushstring_mk, lua_pushnil_mk, lua_settable_third, hs, if_false]
  unfold pushInputs
  simp only [lua_getglobal_mk, ht, lua_pushstring_mk, lua_pushinteger_mk, lua_settable_third, hs,
    if_false, hn, hz, Heap.setTable_setTable, Heap.setTable_tables, if_true, Option.pure_def]
  simp only [inputsTable, inputFields, List.foldl]

theorem adjust_one (rs : List (Value Num)) (v : Value Num) (h : rs.head? = some v) :
    adjust 1 rs = [v] := by
  cases rs with
  | nil => simp at h
  | cons a rs =>
    simp only [List.head?_cons, Option.some.injEq] at h
    subst h
    simp [adjust]

theorem lua_isnumber_top (D : Deps Num) (H : Heap Num) (v : Value Num)
    (s : List (Value Num)) (n : Nat) :
    lua_isnumber D ⟨H, v :: s, n⟩ (-1) = (toNumber D v).isSome := by
  cases v <;> rfl

theorem lua_tonumber_top (D : Deps Num) (H : Heap Num) (v : Value Num)
    (s : List (Value Num)) (n : Nat) :
    lua_tonumber D ⟨H, v :: s, n⟩ (-1) = (toNumber D v).getD (D.ofInt 0) := by
  cases v <;> rfl

theorem getBoolDefault_eq (H : Heap Num) (r : Nat) (s : List (Value Num)) (n : Nat)
    (name : String) (dflt : Bool) :
    getBoolDefault ⟨H, Value.table r :: s, n⟩ name dflt
      = some (boolField (H.tables r) name dflt, ⟨H, Value.table r :: s, n⟩) := by
  unfold getBoolDefault boolField
  simp only [lua_pushstring_mk, lua_gettable_second, lua_pop_one, Option.pure_def,
    lua_isboolean, lua_toboolean, index2adr_top]
  cases rawget (H.tables r) (Value.str name) <;> rfl

/-- The bare-number path of `readResult` (lines 316-322). -/
theorem readResult_number (D : Deps Num) (H : Heap Num) (v : Value Num) (x : Num)
    (stk : List (Value Num)) (n : Nat) (s : EvaluatorState Num)
    (hx : toNumber D v = some x) :
    readResult D true ⟨H, v :: stk, n⟩ s = some (D.toFloat x, ⟨H, stk, n⟩, s) := by
  simp [readResult, lua_isnumber_top, lua_tonumber_top, hx]

/-- The table path of `readResult` (lines 332-371). -/
theorem readResult_table (D : Deps Num) (H : Heap Num) (r : Nat)
    (stk : List (Value Num)) (n : Nat) (s : EvaluatorState Num) :
    readResult D true ⟨H, Value.table r :: stk, n⟩ s
      = some
          ((toNumber D (rawget ((H.setTable 0 (rawset (H.tables 0) (Value.str s.stateName)
              (Value.table r))).tables r) (Value.str "output"))).elim (D.ofInt 0) D.toFloat,
           ⟨H.setTable 0 (rawset (H.tables 0) (Value.str s.stateName) (Value.table r)), stk, n⟩,
           { (if (toNumber D (rawget ((H.setTable 0 (rawset (H.tables 0)
                    (Value.str s.stateName) (Value.table r))).tables r)
                    (Value.str "output"))).isSome then s
              else { s.adderror
                       "You must define the  'output' field in the returned table as a number" with
                     isvalid := false }) with
             useEnvelope := boolField ((H.setTable 0 (rawset (H.tables 0)
               (Value.str s.stateName) (Value.table r))).tables r) "use_envelope" true
             retrigger_AEG := boolField ((H.setTable 0 (rawset (H.tables 0)
               (Value.str s.stateName) (Value.table r))).tables r) "retrigger_AEG" false
             retrigger_FEG := boolField ((H.setTable 0 (rawset (H.tables 0)
               (Value.str s.stateName) (Value.table r))).tables r) "retrigger_FEG" false }) := by
  have hnum : lua_isnumber D ⟨H, Value.table r :: stk, n⟩ (-1) = false := rfl
  have htab : lua_istable ⟨H, Value.table r :: stk, n⟩ (-1) = true := rfl
  unfold readResult
  simp only [hnum, htab, if_true, Bool.false_eq_true, if_false, Bool.not_true, lua_setglobal_mk,
    lua_getglobal_mk, Heap.global, Heap.setTable_tables, rawget_rawset_self, lua_pushstring_mk,
    lua_gettable_second, lua_isnumber_top, lua_tonumber_top, lua_pop_one, getBoolDefault_eq,
    Option.pure_def]
  cases hx : toNumber D (rawget (if r = 0 then
      rawset (H.tables 0) (Value.str s.stateName) (Value.table r) else H.tables r)
      (Value.str "output")) <;> simp [hx]

theorem rawget_of_mem (t : Table Num) (k v : Value Num) (hnd : (t.map Prod.fst).Nodup)
    (h : (k, v) ∈ t) : rawget t k = v := by
  induction t with
  | nil => simp at h
  | cons e t ih =>
    obtain ⟨a, b⟩ := e
    simp only [List.map_cons, List.nodup_cons] at hnd
    simp only [List.mem_cons, Prod.mk.injEq] at h
    rw [rawget_cons]
    rcases h with ⟨rfl, rfl⟩ | h
    · simp
    · have : a ≠ k := by
        intro e
        subst e
        exact hnd.1 (List.mem_map_of_mem Prod.fst h)
      simp only [this, if_false]
      exact ih hnd.2 h

theorem inputFields_names (D : Deps Num) (phaseIntPart : Int) (phaseFracPart : Num)
    (s : EvaluatorState Num) :
    (inputFields D phaseIntPart phaseFracPart s).map Prod.fst
      = ["intphase", "phase", "delay", "attack", "hold", "sustain", "release", "rate",
         "amplitude", "startphase", "deform", "tempo", "songpos", "retrigger_AEG",
         "retrigger_FEG"] := rfl

/-- The state table after the inputs are written: each input field holds its
value (`nil` clears it), every other key is as before. -/
theorem rawget_inputsTable (D : Deps Num) (T : Table Num) (phaseIntPart : Int)
    (phaseFracPart : Num) (s : EvaluatorState Num) :
    (∀ q v, (q, v) ∈ inputFields D phaseIntPart phaseFracPart s →
      rawget (inputsTable D T phaseIntPart phaseFracPart s) (Value.str q) = v) ∧
    (∀ k, (∀ q v, (q, v) ∈ inputFields D phaseIntPart phaseFracPart s → k ≠ Value.str q) →
      rawget (inputsTable D T phaseIntPart phaseFracPart s) k = rawget T k) := by
  have hfold : inputsTable D T phaseIntPart phaseFracPart s
      = ((inputFields D phaseIntPart phaseFracPart s).map
          (fun x => ((Value.str x.1 : Value Num), x.2))).foldl
          (fun T x => rawset T x.1 x.2) T := by
    unfold inputsTable
    rw [List.foldl_map]
  have hkeys : ((inputFields D phaseIntPart phaseFracPart s).map
      (fun x => ((Value.str x.1 : Value Num), x.2))).map Prod.fst
      = ((inputFields D phaseIntPart phaseFracPart s).map Prod.fst).map Value.str := by
    simp [List.map_map, Function.comp_def]
  have hnd : (((inputFields D phaseIntPart phaseFracPart s).map
      (fun x => ((Value.str x.1 : Value Num), x.2))).map Prod.fst).Nodup := by
    rw [hkeys, inputFields_names]
    refine List.Nodup.map ?_ (by decide)
    intro a b h
    exact Value.str.inj h
  constructor
  · intro q v hmem
    have hin : ((Value.str q : Value Num), v) ∈ (inputFields D phaseIntPart phaseFracPart s).map
        (fun x => ((Value.str x.1 : Value Num), x.2)) :=
      List.mem_map.mpr ⟨(q, v), hmem, rfl⟩
    rw [hfold, rawget_foldl_rawset _ _ _ hnd,
      if_pos (List.mem_map.mpr ⟨_, hin, rfl⟩)]
    exact rawget_of_mem _ _ _ hnd hin
  · intro k hk
    rw [hfold, rawget_foldl_rawset _ _ _ hnd, if_neg]
    intro hin
    obtain ⟨e, he, rfl⟩ := List.mem_map.mp hin
    obtain ⟨x, hx, rfl⟩ := List.mem_map.mp he
    exact hk x.1 x.2 hx rfl

/-- The function `valueAt` on a valid state whose callable is a function and whose
state table exists, from the outcome of the call. -/
theorem valueAt_call (D : Deps Num) (W : Statics Num) (phaseIntPart : Int)
    (phaseFracPart : Num) (fs : FormulaModulatorStorage) (s : EvaluatorState Num) (c : Ctx)
    (L : LState Num) (f t : Nat) (H2 : Heap Num)
    (out : Except (Value Num) (List (Value Num)))
    (hL : s.L = some c) (hW : W.state c = some L) (hv : s.isvalid = true)
    (hf : L.heap.global s.funcName = Value.func f)
    (ht : L.heap.global s.stateName = Value.table t)
    (hcall : D.call f [Value.table t]
      (L.heap.setTable t (inputsTable D (L.heap.tables t) phaseIntPart phaseFracPart s))
      = some (H2, out)) :
    valueAt D W phaseIntPart phaseFracPart fs s
      = (match out with
         | Except.ok rs => readResult D true ⟨H2, (adjust 1 rs).reverse ++ L.stack, L.loads⟩ s
         | Except.error e => readResult D false ⟨H2, e :: L.stack, L.loads⟩ s).map
          (fun (r : Num × LState Num × EvaluatorState Num) =>
            (r.1, W.setState c r.2.1, r.2.2)) := by
  obtain ⟨H, stk, n⟩ := L
  simp only at hf ht hcall
  unfold valueAt
  simp only [hL, hv, Bool.not_true, Bool.false_eq_true, if_false, hW, lua_getglobal_mk, hf,
    lua_isnil_top, pushInputs_eq D H _ n phaseIntPart phaseFracPart s t ht, lua_pcall_one_func,
    hcall, Option.pure_def]
  cases out with
  | ok rs =>
    simp only [reduceCtorEq, decide_False, Bool.false_eq_true, if_false]
    cases readResult D true ⟨H2, (adjust 1 rs).reverse ++ stk, n⟩ s <;> rfl
  | error e =>
    simp only [reduceCtorEq, decide_False, Bool.false_eq_true, if_false]
    cases readResult D false ⟨H2, e :: stk, n⟩ s <;> rfl

/-! ## C9: the field resets -/

/-- C9 (amended): after every `prepareForEvaluation` call that returns, whatever
the resolution did and whatever the state held before, `delay`, `attack`, `hold`,
`decay`, `sustain`, `release`, `rate`, `phase`, `amplitude` and `deform` are `0`,
`tempo` is `120` and the use-envelope flag is `true`; `songpos` is the one timing
field the call does not write: it keeps the value it had. -/
theorem prepare_resets_fields (D : Deps Num) (W W2 : Statics Num)
    (fs : FormulaModulatorStorage) (s s2 : EvaluatorState Num) (is_display : Bool)
    (h : prepareForEvaluation D W fs s is_display = some (W2, s2)) :
    s2.del = D.ofInt 0 ∧ s2.a = D.ofInt 0 ∧ s2.h = D.ofInt 0 ∧ s2.dec = D.ofInt 0 ∧
      s2.s = D.ofInt 0 ∧ s2.r = D.ofInt 0 ∧ s2.rate = D.ofInt 0 ∧ s2.phase = D.ofInt 0 ∧
      s2.amp = D.ofInt 0 ∧ s2.deform = D.ofInt 0 ∧ s2.tempo = D.ofInt 120 ∧
      s2.useEnvelope = true ∧ s2.songpos = s.songpos := by
  obtain ⟨L1, s1, L3, hres, rfl, -⟩ := prepare_inv D W W2 fs s s2 is_display h
  have hsp : (selectState D W s is_display).2.2.songpos = s.songpos := by
    rw [selectState_eq]
  have := (resolveFormula_fields D fs _ s1 is_display _ L1 hres).2.2.1
  simp [resetFields, this, hsp]

/-- C9, witness: the resets on a first audio `prepareForEvaluation` of the
sawtooth text. -/
theorem prepare_resets_fields_witness :
    (prepareForEvaluation demo Statics.init ⟨sawText, 7⟩ { blankState with tempo := 90 } false).map
      (fun r => (r.2.tempo, r.2.useEnvelope, r.2.del, r.2.songpos)) = some (120, true, 0, 0) := by
  cases h : prepareForEvaluation demo Statics.init ⟨sawText, 7⟩ { blankState with tempo := 90 } false with
  | none =>
    have hs : (prepareForEvaluation demo Statics.init ⟨sawText, 7⟩
      { blankState with tempo := 90 } false).isSome = true := by decide
    rw [h] at hs
    exact absurd hs (by simp)
  | some r =>
    obtain ⟨W2, s2⟩ := r
    obtain ⟨h1, -, -, -, -, -, -, -, -, -, h11, h12, h13⟩ :=
      prepare_resets_fields demo Statics.init W2 ⟨sawText, 7⟩ _ s2 false h
    simp [h1, h11, h12, h13, demo, blankState]

/-- C9 as stated fails: a state whose `songpos` is `5` still has `songpos = 5`,
not `0`, after `prepareForEvaluation`. -/
theorem songpos_survives_prepare :
    (prepareForEvaluation demo Statics.init ⟨sawText, 7⟩ { blankState with songpos := 5 } false).map
      (fun r => r.2.songpos) = some 5 ∧ (5 : Int) ≠ demo.ofInt 0 := by
  decide

/-! ## C1: the cache hit -/

/-- The callable name depends on the kind and the hash only. -/
theorem prepare_funcName (D : Deps Num) (W W2 : Statics Num) (fs : FormulaModulatorStorage)
    (s s2 : EvaluatorState Num) (d : Bool)
    (hfit : (pvfName d fs.formulaHash).length < D.TXT_SIZE)
    (h : prepareForEvaluation D W fs s d = some (W2, s2)) :
    s2.funcName = pvfName d fs.formulaHash := by
  obtain ⟨L1, s1, L3, hres, rfl, -⟩ := prepare_inv D W W2 fs s s2 d h
  have := (resolveFormula_fields D fs _ s1 d _ L1 hres).2.2.2
  simp only [resetFields, this]
  exact snprintf_fit _ _ _ hfit

/-- C1 (amended): cache hit.  In an audio context, and in a display context
whose math library is intact with a `math.randomseed` that only reseeds the
generator (a display prepare calls `math.randomseed`, lines 191-219; `SeedReady`
says this, and of an audio context only that its table of globals is allocated),
whose globals hold the formula text under the key of (kind, hash),
`prepareForEvaluation` returns a valid state resolved to the callable name of
(kind, hash) - the name every prepare of that kind and hash resolves to - without
compiling (`loads` is unchanged); the stored source, the binding of the callable
name, every function object (so every environment reference) and every table
that existed (so every environment's content) other than the globals are
unchanged, and in the globals only the new state-table name is rebound. -/
theorem cache_hit_reuses (D : Deps Num) (W : Statics Num) (fs : FormulaModulatorStorage)
    (s : EvaluatorState Num) (is_display : Bool)
    (hfit : (pvfName is_display fs.formulaHash).length < D.TXT_SIZE)
    (hhit : (W.current D (ctxOf is_display)).heap.global (pvnName is_display fs.formulaHash)
      = Value.str fs.formulaString)
    (hready : SeedReady D (W.current D (ctxOf is_display)).heap is_display) :
    ∃ W2 s2 L2, prepareForEvaluation D W fs s is_display = some (W2, s2) ∧
      W2.state (ctxOf is_display) = some L2 ∧
      L2.loads = (W.current D (ctxOf is_display)).loads ∧
      L2.heap.global (pvnName is_display fs.formulaHash) = Value.str fs.formulaString ∧
      L2.heap.global (pvfName is_display fs.formulaHash)
        = (W.current D (ctxOf is_display)).heap.global (pvfName is_display fs.formulaHash) ∧
      L2.heap.funcs = (W.current D (ctxOf is_display)).heap.funcs ∧
      (∀ r, r ≠ 0 → r < (W.current D (ctxOf is_display)).heap.fresh →
        L2.heap.tables r = (W.current D (ctxOf is_display)).heap.tables r) ∧
      (∀ name, name ≠ s2.stateName →
        L2.heap.global name = (W.current D (ctxOf is_display)).heap.global name) ∧
      s2.isvalid = true ∧ s2.funcName = pvfName is_display fs.formulaHash ∧
      (∀ (W3 W4 : Statics Num) (fs3 : FormulaModulatorStorage) (s3 s4 : EvaluatorState Num),
        fs3.formulaHash = fs.formulaHash →
        prepareForEvaluation D W3 fs3 s3 is_display = some (W4, s4) →
        s4.funcName = s2.funcName) := by
  have hT : 2 ≤ D.TXT_SIZE := by
    have := pvfName_length is_display fs.formulaHash
    omega
  have hres := resolveFormula_hit D fs (selectState D W s is_display).2.2 is_display
    (W.current D (ctxOf is_display)) hhit
  obtain ⟨L3, hprep, -, hloads, hfuncs, htab, hglob, -, -⟩ :=
    prepare_of_resolve D W fs s _ is_display _ hres hT (fun _ => hready.1) hready.2
  have hname : (selectState D W s is_display).2.2.stateName.data.head?
      = some (if is_display then 'd' else 'a') := selectState_head D W s is_display hT
  have hpd : ∀ x : String, x.data.head? = some 'p' →
      (Value.str x : Value Num) ≠ Value.str (selectState D W s is_display).2.2.stateName := by
    intro x hx e
    have e2 : x = (selectState D W s is_display).2.2.stateName := by simpa using e
    exact ne_of_head _ _ _ _ hx hname (by cases is_display <;> decide) e2
  refine ⟨_, _, L3, hprep, Statics.state_setState _ _ _, hloads, ?_, ?_, hfuncs, htab, ?_, rfl,
    ?_, ?_⟩
  · unfold Heap.global at hhit ⊢
    rw [hglob _ (hpd _ (pvnName_head _ _))]
    exact hhit
  · unfold Heap.global
    exact hglob _ (hpd _ (pvfName_head _ _))
  · intro name hne
    unfold Heap.global
    exact hglob _ (by simpa [resetFields] using hne)
  · simp only [resetFields]
    exact snprintf_fit _ _ _ hfit
  · intro W3 W4 fs3 s3 s4 hh h4
    have h5 := prepare_funcName D W3 W4 fs3 s3 s4 is_display (by rw [hh]; exact hfit) h4
    rw [h5, hh]
    simp only [resetFields]
    exact (snprintf_fit _ _ _ hfit).symm

/-- The `math.randomseed` of the demo runtime only reseeds the generator. -/
theorem demo_seedCallInert : SeedCallInert demo 2 := by
  intro f H hc
  refine ⟨{ H with rng := (8675309 : Int).toNat }, [], ?_, rfl, rfl, rfl⟩
  simp [demo, demoCall, hc]

/-- The display context of the demo runtime after one prepare is ready for the
seeding step. -/
theorem demoAfter_seedReady :
    SeedReady demo ((demoAfter sawText 7 true).current demo Ctx.display).heap true := by
  refine ⟨by decide, fun _ => ⟨1, ⟨by decide, by decide, by decide, by decide, by decide⟩,
    3, by decide, ?_⟩⟩
  have h2 : (((demoAfter sawText 7 true).current demo Ctx.display).heap.funcs 3).code = 2 := by
    decide
  rw [h2]
  exact demo_seedCallInert

/-- C1, witness: the second display `prepareForEvaluation` of the sawtooth text
is a hit: valid, resolved to `pvn1_7_f`, still one compilation in the context. -/
theorem cache_hit_reuses_witness :
    (prepareForEvaluation demo (demoAfter sawText 7 true) ⟨sawText, 7⟩ blankState true).map
      (fun r => (r.2.isvalid, r.2.funcName, (r.1.state Ctx.display).map (fun L => L.loads)))
      = some (true, "pvn1_7_f", some 1) := by
  obtain ⟨W2, s2, L2, hp, hW, hl, -, -, -, -, -, hv, hf, -⟩ :=
    cache_hit_reuses demo (demoAfter sawText 7 true) ⟨sawText, 7⟩ blankState true
      (by decide) (by decide) demoAfter_seedReady
  have hW2 : W2.state Ctx.display = some L2 := hW
  rw [hp]
  simp only [Option.map_some', hW2, hl, hv, hf]
  decide

/-- C1 as stated fails in a display context.  In `demoTrapped` the sawtooth text
is stored under `pvn1_7`, and a chunk has replaced `math.randomseed` by a function
of its own.  The display prepare of the sawtooth text with hash `7` is a cache
hit - valid, resolved to `pvn1_7_f`, still two compilations in the context - and
its seeding step (lines 191-219) calls that function, which clears `pvn1_7`: the
prepare has changed the stored source. -/
theorem cache_hit_runs_replaced_randomseed :
    (demoTrapped.current demo Ctx.display).heap.global "pvn1_7" = Value.str sawText ∧
    (demoTrapped.current demo Ctx.display).loads = 2 ∧
    (prepareForEvaluation demo demoTrapped ⟨sawText, 7⟩ blankState true).map
      (fun r => (r.2.isvalid, r.2.funcName,
        (r.1.state Ctx.display).map (fun L => (L.loads, L.heap.global "pvn1_7"))))
      = some (true, "pvn1_7_f", some (2, Value.nil)) := by
  decide

/-! ## C2: texts that fail -/

/-- C7 (amended): the environment `prepareForEvaluation` installs on a freshly
compiled `process` is a new table - no table that existed before, so neither the
math table nor the globals - that holds, under each key of the context's math
table, the math table's value for that key (a shallow copy) and, under the key
`math` (when the math table has no such key itself), a reference to the
context's real global math table; it holds nothing else.  The prepare leaves the
math table as it was.  So a write to a key of the environment cannot reach the
math table, while a write through its `math` entry is a write to the math table
every formula of the context shares. -/
theorem sandbox_env_contents (D : Deps Num) (W : Statics Num) (fs : FormulaModulatorStorage)
    (s : EvaluatorState Num) (is_display : Bool) (L1 : LState Num) (g m : Nat)
    (hfit : (pvfName is_display fs.formulaHash).length < D.TXT_SIZE)
    (hmiss : storedSource D (W.current D (ctxOf is_display)).heap
      (pvnName is_display fs.formulaHash) ≠ some fs.formulaString)
    (hrun : runChunk D (W.current D (ctxOf is_display)) fs.formulaString = some (true, L1))
    (hp : L1.heap.global "process" = Value.func g)
    (hm : MathIntact L1.heap m)
    (hseed : is_display = true → SeedInert D L1.heap m) :
    ∃ W2 s2 L2, prepareForEvaluation D W fs s is_display = some (W2, s2) ∧
      W2.state (ctxOf is_display) = some L2 ∧
      L2.heap.global s2.funcName = Value.func g ∧
      (L2.heap.funcs g).env = L1.heap.fresh ∧
      (L2.heap.funcs g).env ≠ m ∧ (L2.heap.funcs g).env ≠ 0 ∧
      (∀ k, rawget (L2.heap.tables (L2.heap.funcs g).env) k
        = if k ∈ (L1.heap.tables m).map Prod.fst then rawget (L1.heap.tables m) k
          else if k = Value.str "math" then Value.table m else Value.nil) ∧
      L2.heap.global "math" = Value.table m ∧
      L2.heap.tables m = L1.heap.tables m := by
  obtain ⟨W2, s2, L2, hprep, hW, -, hf, -, -, -, hgf, -, -, hgm, hfg, -, henv, htab⟩ :=
    prepare_compiles D W fs s is_display L1 g m hfit hmiss hrun hp hm hseed
  obtain ⟨-, hm0, hmf, hnd, -⟩ := hm
  have he : (L2.heap.funcs g).env = L1.heap.fresh := by rw [hfg]
  refine ⟨W2, s2, L2, hprep, hW, by rw [hf]; exact hgf, he, ?_, ?_, ?_, hgm, htab m hm0 hmf⟩
  · rw [he]; omega
  · rw [he]; omega
  · intro k
    rw [he, henv]
    exact rawget_envTable _ m k hnd

/-- C7, witness: the environment of the sawtooth `process` under the demo
runtime has `floor` copied from the math table, `math` referring to the math
table, and no `process`. -/
theorem sandbox_env_contents_witness :
    ((prepareForEvaluation demo Statics.init ⟨sawText, 7⟩ blankState false).bind
      (fun r => r.1.state Ctx.audio)).map
      (fun L =>
        (rawget (L.heap.tables (L.heap.funcs 5).env) (Value.str "floor"),
         rawget (L.heap.tables (L.heap.funcs 5).env) (Value.str "math"),
         rawget (L.heap.tables (L.heap.funcs 5).env) (Value.str "process")))
      = some (Value.func 2, Value.table 1, Value.nil) := by
  obtain ⟨W2, s2, L2, hp, hW, -, -, -, -, hk, -, -⟩ :=
    sandbox_env_contents demo Statics.init ⟨sawText, 7⟩ blankState false _ 5 1
      (by decide) (by decide) rfl (by decide)
      ⟨by decide, by decide, by decide, by decide, by decide⟩ (fun h => absurd h (by decide))
  have hW2 : W2.state Ctx.audio = some L2 := hW
  rw [hp]
  simp only [Option.some_bind, hW2, Option.map_some', hk]
  rfl

/-- C7 as stated fails: the environment of a compiled `process` does hold a
reference to the real global math table (its field `math` is the table the global
`math` is), and a script writes through it: once the `process` of `pokeText` has
run, the math table of the context has lost `floor`. -/
theorem sandbox_env_aliases_math :
    ((demoAfter pokeText 8 false).state Ctx.audio).map
        (fun L => (L.heap.global "pvn0_8_f", (L.heap.funcs 5).env,
          rawget (L.heap.tables (L.heap.funcs 5).env) (Value.str "math"),
          L.heap.global "math", rawget (L.heap.tables 1) (Value.str "floor")))
      = some (Value.func 5, 6, Value.table 1, Value.table 1, Value.func 2) ∧
    ((prepareForEvaluation demo Statics.init ⟨pokeText, 8⟩ blankState false).bind
        (fun r => valueAt demo r.1 0 0 ⟨pokeText, 8⟩ r.2)).map
        (fun r => (r.2.2.isvalid,
          (r.2.1.state Ctx.audio).map
            (fun L => (L.heap.global "math", rawget (L.heap.tables 1) (Value.str "floor")))))
      = some (true, some (Value.table 1, Value.nil)) := by
  decide

/-! ## C8: `cleanEvaluatorState` -/

theorem Statics.state_setState_ne (W : Statics Num) (c c2 : Ctx) (L : LState Num)
    (h : c2 ≠ c) : (W.setState c L).state c2 = W.state c2 := by
  cases c <;> cases c2 <;> first | rfl | exact absurd rfl h

/-- What `cleanEvaluatorState` does to a state with a context and a name. -/
theorem clean_spec (W : Statics Num) (s : EvaluatorState Num) (c : Ctx) (L : LState Num)
    (hL : s.L = some c) (hW : W.state c = some L) (hname : s.stateName ≠ "") :
    cleanEvaluatorState W s
      = some (W.setState c ⟨L.heap.setTable 0
                (rawset (L.heap.tables 0) (Value.str s.stateName) Value.nil), L.stack, L.loads⟩,
              { s with stateName := "" }) := by
  obtain ⟨H, stk, n⟩ := L
  simp [cleanEvaluatorState, hL, hname, hW]

/-- A state with no context or an empty name is left alone, with the statics. -/
theorem clean_noop (W : Statics Num) (s : EvaluatorState Num)
    (h : s.L = none ∨ s.stateName = "") : cleanEvaluatorState W s = some (W, s) := by
  unfold cleanEvaluatorState
  rcases h with h | h
  · simp [h]
  · cases s.L <;> simp [h]

/-- A prepared state has a context, which exists, and (given room for one
character in the name buffer) a non-empty state-table name. -/
theorem prepare_cleanable (D : Deps Num) (W W2 : Statics Num) (fs : FormulaModulatorStorage)
    (s s2 : EvaluatorState Num) (d : Bool) (hT : 2 ≤ D.TXT_SIZE)
    (h : prepareForEvaluation D W fs s d = some (W2, s2)) :
    s2.L = some (ctxOf d) ∧ (∃ L, W2.state (ctxOf d) = some L) ∧ s2.stateName ≠ "" := by
  obtain ⟨L1, s1, L3, hres, rfl, rfl⟩ := prepare_inv D W W2 fs s s2 d h
  obtain ⟨hn, hl, -, -⟩ := resolveFormula_fields D fs _ s1 d _ L1 hres
  refine ⟨?_, ⟨L3, Statics.state_setState _ _ _⟩, ?_⟩
  · simp only [resetFields, hl]
    rw [selectState_eq]
  · simp only [resetFields, hn]
    intro e
    have := selectState_head D W s d hT
    rw [e] at this
    simp at this

/-- C8: on a prepared state, `cleanEvaluatorState` sets the global named by the
state's state-table name to `nil` in the state's context, leaves every other
binding of that context (and its other tables, its functions, its stack, its
compile counter), the other context and the name counters unchanged, and empties
the stored state-table name, touching no other field.  It is idempotent: a second
`cleanEvaluatorState`, or one on a state produced by `initEvaluatorState`, changes
neither the state nor the statics. -/
theorem clean_clears_state_table (D : Deps Num) (W0 W : Statics Num)
    (fs : FormulaModulatorStorage) (s0 s : EvaluatorState Num) (is_display : Bool)
    (hT : 2 ≤ D.TXT_SIZE)
    (hprep : prepareForEvaluation D W0 fs s0 is_display = some (W, s)) :
    ∃ W2 L L2, cleanEvaluatorState W s = some (W2, { s with stateName := "" }) ∧
      W.state (ctxOf is_display) = some L ∧ W2.state (ctxOf is_display) = some L2 ∧
      L2.heap.global s.stateName = Value.nil ∧
      (∀ k, k ≠ Value.str s.stateName →
        rawget (L2.heap.tables 0) k = rawget (L.heap.tables 0) k) ∧
      (∀ r, r ≠ 0 → L2.heap.tables r = L.heap.tables r) ∧
      L2.heap.funcs = L.heap.funcs ∧ L2.stack = L.stack ∧ L2.loads = L.loads ∧
      (∀ c, c ≠ ctxOf is_display → W2.state c = W.state c) ∧
      W2.aid = W.aid ∧ W2.did = W.did ∧
      cleanEvaluatorState W2 { s with stateName := "" }
        = some (W2, { s with stateName := "" }) ∧
      (∀ (W3 : Statics Num) (s3 : EvaluatorState Num),
        cleanEvaluatorState W3 (initEvaluatorState s3) = some (W3, initEvaluatorState s3)) := by
  obtain ⟨hL, ⟨L, hW⟩, hname⟩ := prepare_cleanable D W0 W fs s0 s is_display hT hprep
  refine ⟨_, L, _, clean_spec W s _ L hL hW hname, hW, Statics.state_setState _ _ _, ?_, ?_, ?_,
    rfl, rfl, rfl, ?_, ?_, ?_, ?_, ?_⟩
  · simp [Heap.global, rawget_rawset_self]
  · intro k hk
    simp [rawget_rawset_ne _ _ _ _ hk]
  · intro r hr
    simp [hr]
  · intro c hc
    exact Statics.state_setState_ne _ _ _ _ hc
  · cases is_display <;> rfl
  · cases is_display <;> rfl
  · exact clean_noop _ _ (Or.inr rfl)
  · intro W3 s3
    exact clean_noop _ _ (Or.inl rfl)

/-- C8, witness: cleaning the state of a first audio prepare under the demo
runtime unbinds `audiostate_1` and keeps the stored source. -/
theorem clean_clears_state_table_witness :
    ((prepareForEvaluation demo Statics.init ⟨sawText, 7⟩ blankState false).bind
      (fun r => cleanEvaluatorState r.1 r.2)).map
      (fun r => (r.2.stateName, (r.1.state Ctx.audio).map
        (fun L => (L.heap.global "audiostate_1", L.heap.global "pvn0_7"))))
      = some ("", some (Value.nil, Value.str sawText)) := by
  cases h : prepareForEvaluation demo Statics.init ⟨sawText, 7⟩ blankState false with
  | none =>
    have hs : (prepareForEvaluation demo Statics.init ⟨sawText, 7⟩ blankState false).isSome
        = true := by decide
    rw [h] at hs
    exact absurd hs (by simp)
  | some r =>
    obtain ⟨W, s⟩ := r
    obtain ⟨W2, L, L2, hc, hW, hW2, hg, hk, -⟩ :=
      clean_clears_state_table demo Statics.init W ⟨sawText, 7⟩ blankState s false
        (by decide) h
    have hsn : s.stateName = "audiostate_1" := by
      have : (prepareForEvaluation demo Statics.init ⟨sawText, 7⟩ blankState false).map
          (fun r => r.2.stateName) = some "audiostate_1" := by decide
      rw [h] at this
      simpa using this
    have hsrc : L.heap.global "pvn0_7" = Value.str sawText := by
      have : ((prepareForEvaluation demo Statics.init ⟨sawText, 7⟩ blankState false).bind
          (fun r => r.1.state Ctx.audio)).map (fun L => L.heap.global "pvn0_7")
          = some (Value.str sawText) := by decide
      rw [h] at this
      have hW1 : W.state Ctx.audio = some L := hW
      simpa [hW1] using this
    have hW3 : W2.state Ctx.audio = some L2 := hW2
    have h1 : L2.heap.global "audiostate_1" = Value.nil := by rw [← hsn]; exact hg
    have h2 : L2.heap.global "pvn0_7" = Value.str sawText := by
      unfold Heap.global at hsrc ⊢
      rw [hk _ (by rw [hsn]; decide)]
      exact hsrc
    simp only [Option.some_bind, hc, Option.map_some', hW3, h1, h2]

/-! ## C5: the table-result path of `valueAt` -/

/-- C5: the table-result path.  For a valid state with a context, whose callable
name is bound to a function `f` and whose state-table name is bound to a table
`t`: `valueAt` writes the call inputs into `t` (each field of `inputFields` holds
its value, `retrigger_AEG` and `retrigger_FEG` are cleared, every other key of the
table is as before) and calls `f` on it; when the call returns a table `r` whose
field `output` is a number `x` (with `T` the table `r` as it stands once rebound),
`valueAt` returns `x` as a `float`, leaves `isvalid = true` and the recorded error
alone, rebinds the state-table name to `r` - so the next call fetches exactly that
table - and sets `useEnvelope`, `retrigger_AEG`, `retrigger_FEG` to the boolean
fields `use_envelope`, `retrigger_AEG`, `retrigger_FEG` of `r`, defaulting to
`true`, `false`, `false` when a field is absent or not a boolean. -/
theorem valueAt_table_result (D : Deps Num) (W : Statics Num) (phaseIntPart : Int)
    (phaseFracPart : Num) (fs : FormulaModulatorStorage) (s : EvaluatorState Num) (c : Ctx)
    (L : LState Num) (f t r : Nat) (H2 : Heap Num) (rs : List (Value Num)) (x : Num)
    (hL : s.L = some c) (hW : W.state c = some L) (hv : s.isvalid = true)
    (hf : L.heap.global s.funcName = Value.func f)
    (ht : L.heap.global s.stateName = Value.table t)
    (hcall : D.call f [Value.table t]
      (L.heap.setTable t (inputsTable D (L.heap.tables t) phaseIntPart phaseFracPart s))
      = some (H2, Except.ok rs))
    (hr : rs.head? = some (Value.table r))
    (hout : toNumber D (rawget ((H2.setTable 0 (rawset (H2.tables 0) (Value.str s.stateName)
      (Value.table r))).tables r) (Value.str "output")) = some x) :
    ∃ W2 s2 L2 T, valueAt D W phaseIntPart phaseFracPart fs s = some (D.toFloat x, W2, s2) ∧
      W2.state c = some L2 ∧
      L2.heap = H2.setTable 0 (rawset (H2.tables 0) (Value.str s.stateName) (Value.table r)) ∧
      T = L2.heap.tables r ∧
      L2.heap.global s.stateName = Value.table r ∧
      L2.stack = L.stack ∧
      s2 = { s with
        useEnvelope := boolField T "use_envelope" true
        retrigger_AEG := boolField T "retrigger_AEG" false
        retrigger_FEG := boolField T "retrigger_FEG" false } ∧
      s2.isvalid = true ∧
      (∀ q v, (q, v) ∈ inputFields D phaseIntPart phaseFracPart s →
        rawget (inputsTable D (L.heap.tables t) phaseIntPart phaseFracPart s) (Value.str q) = v) ∧
      (∀ k, (∀ q v, (q, v) ∈ inputFields D phaseIntPart phaseFracPart s → k ≠ Value.str q) →
        rawget (inputsTable D (L.heap.tables t) phaseIntPart phaseFracPart s) k
          = rawget (L.heap.tables t) k) := by
  have hval := valueAt_call D W phaseIntPart phaseFracPart fs s c L f t H2 (Except.ok rs)
    hL hW hv hf ht hcall
  simp only [adjust_one rs _ hr, List.reverse_cons, List.reverse_nil, List.nil_append,
    List.singleton_append, readResult_table, hout, Option.map_some', Option.elim,
    Option.isSome_some, if_true] at hval
  refine ⟨_, _, _, _, hval, Statics.state_setState _ _ _, rfl, rfl, ?_, rfl, rfl, hv,
    (rawget_inputsTable D _ phaseIntPart phaseFracPart s).1,
    (rawget_inputsTable D _ phaseIntPart phaseFracPart s).2⟩
  simp [Heap.global, rawget_rawset_self]

theorem Statics.state_eq_current (D : Deps Num) (W : Statics Num) (c : Ctx)
    (h : (W.state c).isSome = true) : W.state c = some (W.current D c) := by
  unfold Statics.current
  cases hs : W.state c with
  | none => rw [hs] at h; exact absurd h (by simp)
  | some L => rfl

theorem call_ok_split (x : Option (Heap Num × Except (Value Num) (List (Value Num))))
    (h : x.map (fun p => p.2.toBool) = some true) :
    ∃ H2 rs, x = some (H2, Except.ok rs) := by
  cases x with
  | none => simp at h
  | some p =>
    obtain ⟨H2, out⟩ := p
    cases out with
    | error e => simp [Except.toBool] at h
    | ok rs => exact ⟨H2, rs, rfl⟩

/-- C5, witness: the sawtooth formula at `phase = 3` (integer numbers in the demo
runtime): `3 * 2 - 1 = 5`, the state stays valid and the table stays bound. -/
theorem valueAt_table_result_witness :
    (valueAt demo (demoAfter sawText 7 false) 0 3 ⟨sawText, 7⟩ (demoPrepared sawText 7 false)).map
      (fun r => (r.1, r.2.2.isvalid,
        (r.2.1.state Ctx.audio).map (fun L => L.heap.global "audiostate_1")))
      = some (5, true, some (Value.table 7)) := by
  obtain ⟨H2, rs, hc⟩ := call_ok_split
    (demo.call 5 [Value.table 7]
      (((demoAfter sawText 7 false).current demo Ctx.audio).heap.setTable 7
        (inputsTable demo (((demoAfter sawText 7 false).current demo Ctx.audio).heap.tables 7)
          0 3 (demoPrepared sawText 7 false)))) (by decide)
  have hr : rs.head? = some (Value.table 7) := by
    have h : (demo.call 5 [Value.table 7]
      (((demoAfter sawText 7 false).current demo Ctx.audio).heap.setTable 7
        (inputsTable demo (((demoAfter sawText 7 false).current demo Ctx.audio).heap.tables 7)
          0 3 (demoPrepared sawText 7 false)))).map
        (fun p => match p.2 with
          | Except.ok rs => rs.head?
          | Except.error _ => none) = some (some (Value.table 7)) := by decide
    rw [hc] at h
    simpa using h
  have hout : toNumber demo (rawget ((H2.setTable 0 (rawset (H2.tables 0)
      (Value.str (demoPrepared sawText 7 false).stateName) (Value.table 7))).tables 7)
      (Value.str "output")) = some 5 := by
    have h : (demo.call 5 [Value.table 7]
      (((demoAfter sawText 7 false).current demo Ctx.audio).heap.setTable 7
        (inputsTable demo (((demoAfter sawText 7 false).current demo Ctx.audio).heap.tables 7)
          0 3 (demoPrepared sawText 7 false)))).map
        (fun p => toNumber demo (rawget ((p.1.setTable 0 (rawset (p.1.tables 0)
          (Value.str (demoPrepared sawText 7 false).stateName) (Value.table 7))).tables 7)
          (Value.str "output"))) = some (some 5) := by decide
    rw [hc] at h
    simpa using h
  obtain ⟨W2, s2, L2, T, hval, hW, -, -, hg, -, -, hv2, -, -⟩ :=
    valueAt_table_result demo (demoAfter sawText 7 false) 0 3 ⟨sawText, 7⟩
      (demoPrepared sawText 7 false) Ctx.audio
      ((demoAfter sawText 7 false).current demo Ctx.audio) 5 7 7 H2 rs 5
      (by decide) (Statics.state_eq_current demo _ _ (by decide)) (by decide) (by decide)
      (by decide) hc hr hout
  have hg2 : L2.heap.global "audiostate_1" = Value.table 7 := hg
  rw [hval]
  simp only [Option.map_some', hW, hv2, hg2]
  rfl

/-! ## C6: the failure paths of `valueAt` -/

theorem digitChar_value (k : Nat) (hk : k < 10) : (Nat.digitChar k).toNat - 48 = k := by
  interval_cases k <;> rfl

theorem foldl_toDigitsCore (fuel : Nat) :
    ∀ (n : Nat) (ds : List Char), n < fuel →
      (Nat.toDigitsCore 10 fuel n ds).foldl (fun acc c => acc * 10 + (c.toNat - 48)) 0
        = ds.foldl (fun acc c => acc * 10 + (c.toNat - 48)) n := by
  induction fuel with
  | zero => intro n ds h; omega
  | succ fuel ih =>
    intro n ds h
    have hmod : n % 10 < 10 := Nat.mod_lt _ (by decide)
    simp only [Nat.toDigitsCore]
    by_cases h0 : n / 10 = 0
    · simp only [h0, if_true, List.foldl_cons, Nat.zero_mul, Nat.zero_add,
        digitChar_value _ hmod]
      congr 1
      omega
    · simp only [h0, if_false]
      rw [ih (n / 10) _ (by omega)]
      simp only [List.foldl_cons, digitChar_value _ hmod]
      congr 1
      omega

theorem decodeDigits_repr (n : Nat) : decodeDigits (Nat.repr n).data = n := by
  unfold decodeDigits
  have : (Nat.repr n).data = Nat.toDigitsCore 10 (n + 1) n [] := rfl
  rw [this, foldl_toDigitsCore (n + 1) n [] (by omega)]
  rfl

theorem natRepr_inj (a b : Nat) (h : Nat.repr a = Nat.repr b) : a = b := by
  have := congrArg (fun s => decodeDigits s.data) h
  simpa [decodeDigits_repr] using this

theorem intToString_ofNat (n : Nat) : toString (n : Int) = Nat.repr n := rfl

/-- The bump of an in-range counter: one more, or back to `1` from `2^31 - 1`. -/
theorem bumpId_eq (n : Int) (h1 : 1 ≤ n) (h2 : n ≤ 2147483647) :
    bumpId n = if n = 2147483647 then 1 else n + 1 := by
  simp only [bumpId, wrapInt32]
  split <;> split <;> omega

theorem bumpId_iterate (k : Nat) (n : Int) (h1 : 1 ≤ n) (h2 : n ≤ 2147483647) :
    bumpId^[k] n = (n - 1 + k) % 2147483647 + 1 := by
  induction k with
  | zero =>
    simp only [Function.iterate_zero, id_eq, Nat.cast_zero, add_zero]
    omega
  | succ k ih =>
    rw [Function.iterate_succ_apply', ih]
    rw [bumpId_eq _ (by omega) (by omega)]
    push_cast
    split <;> omega

theorem bumpId_iterate_range (k : Nat) (n : Int) (h1 : 1 ≤ n) (h2 : n ≤ 2147483647) :
    1 ≤ bumpId^[k] n ∧ bumpId^[k] n ≤ 2147483647 := by
  rw [bumpId_iterate k n h1 h2]
  omega

theorem bumpId_iterate_ne (k : Nat) (n : Int) (h1 : 1 ≤ n) (h2 : n ≤ 2147483647)
    (hk0 : 0 < k) (hk : k < 2147483647) : bumpId^[k] n ≠ n := by
  rw [bumpId_iterate k n h1 h2]
  omega

theorem toString_int_inj (a b : Int) (ha : 0 ≤ a) (hb : 0 ≤ b)
    (h : toString a = toString b) : a = b := by
  obtain ⟨m, rfl⟩ := Int.eq_ofNat_of_zero_le ha
  obtain ⟨k, rfl⟩ := Int.eq_ofNat_of_zero_le hb
  rw [intToString_ofNat, intToString_ofNat] at h
  rw [natRepr_inj m k h]

theorem toString_int_length (a : Int) (h1 : 0 ≤ a) (h2 : a ≤ 2147483647) :
    (toString a).length ≤ 10 := by
  obtain ⟨m, rfl⟩ := Int.eq_ofNat_of_zero_le h1
  rw [intToString_ofNat]
  exact Nat.repr_length m 10 (by decide) (by omega)

theorem kindName_length (d : Bool) : (kindName d).length ≤ 11 := by
  cases d <;> decide

/-- An in-range counter gives a name that fits a buffer of 22 characters. -/
theorem stateName_fits (D : Deps Num) (buf : String) (d : Bool) (n : Int)
    (hT : 22 ≤ D.TXT_SIZE) (h1 : 1 ≤ n) (h2 : n ≤ 2147483647) :
    snprintf buf D.TXT_SIZE (kindName d ++ toString n) = kindName d ++ toString n := by
  apply snprintf_fit
  rw [String.length_append]
  have := kindName_length d
  have := toString_int_length n (by omega) h2
  omega

theorem stateName_inj (d : Bool) (a b : Int) (ha : 0 ≤ a) (hb : 0 ≤ b)
    (h : kindName d ++ toString a = kindName d ++ toString b) : a = b := by
  have hd := congrArg String.data h
  simp only [String.data_append] at hd
  have := List.append_cancel_left hd
  exact toString_int_inj a b ha hb (String.ext this)

/-- The naming step of one `prepareForEvaluation`. -/
theorem prepare_names (D : Deps Num) (W W2 : Statics Num) (fs : FormulaModulatorStorage)
    (s s2 : EvaluatorState Num) (d : Bool)
    (h : prepareForEvaluation D W fs s d = some (W2, s2)) :
    s2.stateName = snprintf s.stateName D.TXT_SIZE (kindName d ++ toString (counterOf W d)) ∧
      counterOf W2 d = bumpId (counterOf W d) ∧
      counterOf W2 (!d) = counterOf W (!d) := by
  obtain ⟨L1, s1, L3, hres, rfl, rfl⟩ := prepare_inv D W W2 fs s s2 d h
  have hn := (resolveFormula_fields D fs _ s1 d _ L1 hres).1
  refine ⟨?_, ?_, ?_⟩
  · simp only [resetFields, hn]
    rw [selectState_stateName]
    cases d <;> rfl
  · cases d <;> rfl
  · cases d <;> rfl

theorem bool_eq_not_of_ne (a b : Bool) (h : a ≠ b) : b = !a := by
  cases a <;> cases b <;> simp at h ⊢

theorem prepareAll_cons (D : Deps Num) (W W2 : Statics Num)
    (c : FormulaModulatorStorage × EvaluatorState Num × Bool)
    (rest : List (FormulaModulatorStorage × EvaluatorState Num × Bool))
    (outs : List (EvaluatorState Num))
    (h : prepareAll D W (c :: rest) = some (outs, W2)) :
    ∃ W1 s1 outs1, prepareForEvaluation D W c.1 c.2.1 c.2.2 = some (W1, s1) ∧
      prepareAll D W1 rest = some (outs1, W2) ∧ outs = s1 :: outs1 := by
  simp only [prepareAll] at h
  split at h
  · exact absurd h (by simp)
  · rename_i W1 s1 hp
    cases hr : prepareAll D W1 rest with
    | none => rw [hr] at h; exact absurd h (by simp)
    | some r =>
      rw [hr] at h
      simp only [Option.map_some', Option.some.injEq, Prod.mk.injEq] at h
      exact ⟨W1, s1, r.1, hp, by rw [hr, ← h.2], h.1.symm⟩

/-- The name each call of a run receives, from the counters at the start. -/
theorem prepareAll_names (D : Deps Num) (hT : 22 ≤ D.TXT_SIZE)
    (calls : List (FormulaModulatorStorage × EvaluatorState Num × Bool)) :
    ∀ (W W2 : Statics Num) (outs : List (EvaluatorState Num)),
      (∀ d, 1 ≤ counterOf W d ∧ counterOf W d ≤ 2147483647) →
      prepareAll D W calls = some (outs, W2) →
      (∀ d, 1 ≤ counterOf W2 d ∧ counterOf W2 d ≤ 2147483647) ∧
      ∀ j c o, calls[j]? = some c → outs[j]? = some o →
        o.stateName = kindName c.2.2 ++ toString
          (bumpId^[(calls.take j).countP (fun x => x.2.2 == c.2.2)] (counterOf W c.2.2)) := by
  induction calls with
  | nil =>
    intro W W2 outs hW h
    simp only [prepareAll, Option.some.injEq, Prod.mk.injEq] at h
    obtain ⟨rfl, rfl⟩ := h
    exact ⟨hW, fun j c o hc => by simp at hc⟩
  | cons c rest ih =>
    intro W W2 outs hW h
    obtain ⟨W1, s1, outs1, hp, hr, rfl⟩ := prepareAll_cons D W W2 c rest outs h
    obtain ⟨hname, hbump, hother⟩ := prepare_names D W W1 c.1 c.2.1 s1 c.2.2 hp
    have hW1 : ∀ d, 1 ≤ counterOf W1 d ∧ counterOf W1 d ≤ 2147483647 := by
      intro d
      by_cases hd : d = c.2.2
      · subst hd
        rw [hbump, bumpId_eq _ (hW _).1 (hW _).2]
        have := hW c.2.2
        split <;> omega
      · have : d = !c.2.2 := bool_eq_not_of_ne _ _ (fun e => hd e.symm)
        rw [this, hother]
        exact hW _
    obtain ⟨hW2, hrest⟩ := ih W1 W2 outs1 hW1 hr
    refine ⟨hW2, ?_⟩
    intro j cj o hcj ho
    cases j with
    | zero =>
      simp only [List.getElem?_cons_zero, Option.some.injEq] at hcj ho
      subst hcj ho
      simp only [List.take_zero, List.countP_nil, Function.iterate_zero, id_eq]
      rw [hname]
      exact stateName_fits D _ _ _ hT (hW _).1 (hW _).2
    | succ j =>
      simp only [List.getElem?_cons_succ] at hcj ho
      rw [hrest j cj o hcj ho]
      simp only [List.take_succ_cons, List.countP_cons]
      by_cases hk : c.2.2 = cj.2.2
      · have hb : (c.2.2 == cj.2.2) = true := by simp [hk]
        simp only [hb, if_true, Function.iterate_succ_apply]
        rw [← hk, hbump]
      · have hb : (c.2.2 == cj.2.2) = false := by simp [hk]
        have : cj.2.2 = !c.2.2 := bool_eq_not_of_ne _ _ hk
        simp only [hb, Bool.false_eq_true, if_false, Nat.add_zero]
        rw [this, hother]

/-- C10: state-table naming.  Each kind has its own counter, `1` at program
start.  Every `prepareForEvaluation` names the state table `audiostate_N` or
`dispstate_N` with the current counter `N` of its kind (cut to the name buffer)
and leaves the counter of the other kind alone; the counter then becomes `N + 1`,
or `1` when the 32-bit increment would go negative (`N = 2^31 - 1`).  Hence, in a
run of prepares from counters in `[1, 2^31 - 1]`, the counters stay in
`[1, 2^31 - 1]`, and (with a name buffer of at least 22 characters) two prepares
of the same kind with fewer than `2^31 - 1` prepares of that kind from the first
up to the second receive different state-table names. -/
theorem state_names_distinct (D : Deps Num) (hT : 22 ≤ D.TXT_SIZE) :
    (counterOf (Statics.init : Statics Num) false = 1 ∧
      counterOf (Statics.init : Statics Num) true = 1) ∧
    (∀ (W W2 : Statics Num) (fs : FormulaModulatorStorage) (s s2 : EvaluatorState Num)
        (d : Bool), prepareForEvaluation D W fs s d = some (W2, s2) →
      s2.stateName = snprintf s.stateName D.TXT_SIZE (kindName d ++ toString (counterOf W d)) ∧
      counterOf W2 d = bumpId (counterOf W d) ∧ counterOf W2 (!d) = counterOf W (!d)) ∧
    (∀ n : Int, 1 ≤ n → n ≤ 2147483647 →
      bumpId n = if n = 2147483647 then 1 else n + 1) ∧
    (∀ (W W2 : Statics Num) (calls : List (FormulaModulatorStorage × EvaluatorState Num × Bool))
        (outs : List (EvaluatorState Num)),
      (∀ d, 1 ≤ counterOf W d ∧ counterOf W d ≤ 2147483647) →
      prepareAll D W calls = some (outs, W2) →
      (∀ d, 1 ≤ counterOf W2 d ∧ counterOf W2 d ≤ 2147483647) ∧
      ∀ i j ci cj oi oj, i < j →
        calls[i]? = some ci → calls[j]? = some cj →
        outs[i]? = some oi → outs[j]? = some oj →
        ci.2.2 = cj.2.2 →
        ((calls.drop i).take (j - i)).countP (fun x => x.2.2 == cj.2.2) < 2147483647 →
        oi.stateName ≠ oj.stateName) := by
  refine ⟨⟨rfl, rfl⟩, fun W W2 fs s s2 d h => prepare_names D W W2 fs s s2 d h,
    fun n h1 h2 => bumpId_eq n h1 h2, ?_⟩
  intro W W2 calls outs hW hrun
  obtain ⟨hW2, hnames⟩ := prepareAll_names D hT calls W W2 outs hW hrun
  refine ⟨hW2, ?_⟩
  intro i j ci cj oi oj hij hci hcj hoi hoj hkind hcount
  rw [hnames i ci oi hci hoi, hnames j cj oj hcj hoj, hkind]
  have hsplit : calls.take j = calls.take i ++ (calls.drop i).take (j - i) := by
    have : j = i + (j - i) := by omega
    conv_lhs => rw [this]
    exact List.take_add _ _ _
  have hhead : ∃ tl, (calls.drop i).take (j - i) = ci :: tl := by
    have hlt : i < calls.length := by
      by_contra hge
      rw [List.getElem?_eq_none (by omega)] at hci
      exact absurd hci (by simp)
    have hd : calls.drop i = ci :: calls.drop (i + 1) := by
      have := List.drop_eq_getElem_cons hlt
      rw [this]
      congr 1
      rw [List.getElem?_eq_getElem hlt] at hci
      exact Option.some.inj hci
    obtain ⟨k, hk⟩ : ∃ k, j - i = k + 1 := ⟨j - i - 1, by omega⟩
    rw [hd, hk, List.take_succ_cons]
    exact ⟨_, rfl⟩
  obtain ⟨tl, htl⟩ := hhead
  have hpos : 0 < ((calls.drop i).take (j - i)).countP (fun x => x.2.2 == cj.2.2) := by
    rw [htl, List.countP_cons]
    have : (ci.2.2 == cj.2.2) = true := by simp [hkind]
    simp [this]
  rw [hsplit, List.countP_append, Nat.add_comm, Function.iterate_add_apply]
  intro heq
  have hr := bumpId_iterate_range ((calls.take i).countP (fun x => x.2.2 == cj.2.2))
    (counterOf W cj.2.2) (hW _).1 (hW _).2
  have hr2 := bumpId_iterate_range (((calls.drop i).take (j - i)).countP
    (fun x => x.2.2 == cj.2.2)) _ hr.1 hr.2
  have := stateName_inj cj.2.2 _ _ (by omega) (by omega) heq
  exact bumpId_iterate_ne _ _ hr.1 hr.2 hpos hcount this.symm

/-- C10, witness: under the demo runtime (name buffer of 256 characters) the
first audio prepare is named `audiostate_1` and moves the audio counter to `2`,
and the counter wraps from `2^31 - 1` to `1`. -/
theorem state_names_distinct_witness :
    22 ≤ demo.TXT_SIZE ∧ bumpId 2147483647 = 1 ∧
    (prepareForEvaluation demo Statics.init ⟨sawText, 7⟩ blankState false).map
      (fun r => (r.2.stateName, counterOf r.1 false, counterOf r.1 true))
      = some ("audiostate_1", 2, 1) := by
  have h := state_names_distinct demo (by decide)
  refine ⟨by decide, ?_, ?_⟩
  · have := h.2.2.1 2147483647 (by decide) (by decide)
    simpa using this
  · cases hp : prepareForEvaluation demo Statics.init ⟨sawText, 7⟩ blankState false with
    | none =>
      have hs : (prepareForEvaluation demo Statics.init ⟨sawText, 7⟩ blankState false).isSome
          = true := by decide
      rw [hp] at hs
      exact absurd hs (by simp)
    | some r =>
      obtain ⟨W2, s2⟩ := r
      obtain ⟨a, b, c⟩ := h.2.1 Statics.init W2 ⟨sawText, 7⟩ blankState s2 false hp
      have c2 : counterOf W2 true = counterOf (Statics.init : Statics Int) true := c
      simp only [Option.map_some', a, b, c2]
      decide

/-! ## C3: the cache-entry invariant -/

/-- C3 fails on the code.  Under the demo runtime, three audio prepares with the
same hash `7` - the sawtooth text, then twice a text that does not compile - end
with a state that is valid for the text that does not compile, resolved to
`pvn0_7_f`, which is still bound to the `process` function compiled from the
sawtooth text (function `5`, code `11`); `valueAt` on that state runs the
sawtooth (`3 * 2 - 1 = 5`).  The second prepare reports the collision and stores
the failing text under the key although nothing was compiled from it; the third
takes the cache-hit path, which sets `isvalid = true` without looking at the
callable. -/
theorem stale_callable_after_failed_text :
    (prepareAll demo Statics.init
        [(⟨sawText, 7⟩, blankState, false), (⟨badText, 7⟩, blankState, false),
         (⟨badText, 7⟩, blankState, false)]).map
      (fun r => (r.1.map (fun s => (s.isvalid, s.funcName)),
        (r.2.state Ctx.audio).map (fun L =>
          (L.heap.global "pvn0_7", L.heap.global "pvn0_7_f", (L.heap.funcs 5).code))))
      = some ([(true, "pvn0_7_f"), (false, "pvn0_7_f"), (true, "pvn0_7_f")],
          some (Value.str badText, Value.func 5, 11)) ∧
    ((prepareAll demo Statics.init
        [(⟨sawText, 7⟩, blankState, false), (⟨badText, 7⟩, blankState, false),
         (⟨badText, 7⟩, blankState, false)]).bind
      (fun r => valueAt demo r.2 0 3 ⟨badText, 7⟩ (r.1.getLastD blankState))).map
      (fun r => (r.1, r.2.2.isvalid)) = some (5, true) := by
  decide

end Formula
end Surge
